import Mathlib

/-!
# Portfolio front-end script: a shallow embedding of `script.js`

Each controller of `script.js` is embedded as a pure function on an explicit
record of the DOM state it reads and writes.  Exceptions are values of
`Except`, `console.warn` is a list of logged messages, and event listeners are
functions from a state to a state.
-/

namespace Portfolio

/-! ## Theme toggle (`initThemeToggle`, script.js lines 18-57) -/

/-- The icon markup `<i class="bi bi-moon-fill"></i>`, identified by its class. -/
def moonIcon : String := "bi bi-moon-fill"

/-- The icon markup `<i class="bi bi-sun-fill"></i>`, identified by its class. -/
def sunIcon : String := "bi bi-sun-fill"

/-- The part of the page the theme controller reads and writes. -/
structure ThemePage where
  /-- Whether `document.body.classList` contains `dark-theme`. -/
  bodyDark : Bool
  /-- Class names of the elements appended to `document.body`, in order. -/
  bodyChildren : List String
  /-- The `innerHTML` of the theme toggle button. -/
  toggleIcon : String
  /-- The `aria-pressed` attribute of the theme toggle button. -/
  ariaPressed : Option String
  /-- The `aria-label` attribute of the theme toggle button. -/
  ariaLabel : Option String
  /-- The value stored under the key `theme` in `localStorage`. -/
  stored : Option String
  /-- Messages passed to `console.warn`. -/
  warnings : List String
  deriving DecidableEq, Repr

/-- Model of `localStorage.getItem('theme')`: throws when storage is unavailable. -/
def getItem (throws : Bool) (d : ThemePage) : Except String (Option String) :=
  if throws then .error "SecurityError" else .ok d.stored

/-- Model of `localStorage.setItem('theme', v)`: throws on quota or access errors. -/
def setItem (throws : Bool) (v : String) (d : ThemePage) : Except String ThemePage :=
  if throws then .error "QuotaExceededError" else .ok { d with stored := some v }

/-- The string written to `aria-pressed`: `isDark ? 'true' : 'false'`. -/
def pressedOf (isDark : Bool) : String := if isDark then "true" else "false"

/-- Body of `initThemeToggle` up to the registration of the click listener
(lines 19-40).  `readThrows` says whether the storage read throws. -/
def initThemeToggle (readThrows : Bool) (d : ThemePage) : Except String ThemePage :=
  -- lines 19-25: create the button, default icon, append to body
  let d1 : ThemePage :=
    { d with bodyChildren := d.bodyChildren ++ ["theme-toggle"],
             ariaLabel := some "Toggle dark mode",
             toggleIcon := moonIcon,
             ariaPressed := none }
  -- lines 27-32: let savedTheme = 'dark'; try getItem ?? 'dark' catch warn
  let r : String × ThemePage :=
    match getItem readThrows d1 with
    | .ok v => (v.getD "dark", d1)
    | .error _ =>
      ("dark", { d1 with warnings := d1.warnings ++
          ["[Theme Setup]: localStorage access denied or unavailable."] })
  let savedTheme := r.1
  let d2 := r.2
  -- lines 34-40
  if savedTheme = "dark" then
    .ok { d2 with bodyDark := true, toggleIcon := sunIcon, ariaPressed := some "true" }
  else
    .ok { d2 with ariaPressed := some "false" }

/-- The click listener of the theme toggle (lines 42-56).  `writeThrows` says
whether the storage write of this click throws. -/
def themeClick (writeThrows : Bool) (d : ThemePage) : Except String ThemePage :=
  -- classList.toggle, then read the class back
  let d1 : ThemePage := { d with bodyDark := !d.bodyDark }
  let isDark := d1.bodyDark
  let d2 : ThemePage :=
    { d1 with toggleIcon := if isDark then sunIcon else moonIcon,
              ariaPressed := some (pressedOf isDark) }
  -- try setItem catch warn
  match setItem writeThrows (if isDark then "dark" else "light") d2 with
  | .ok d3 => .ok d3
  | .error _ =>
    .ok { d2 with warnings := d2.warnings ++
        ["[Theme Save]: Unable to save theme to localStorage."] }

/-- A page whose body carries `dark-theme` in the markup while the store
holds `light`. -/
def darkMarkupLightStore : ThemePage :=
  { bodyDark := true, bodyChildren := [], toggleIcon := "", ariaPressed := none,
    ariaLabel := none, stored := some "light", warnings := [] }

/-! ## Mobile navigation and focus trap (`initMobileNav`, script.js lines 69-142) -/

/-- An `a` element inside the nav. -/
structure Anchor where
  /-- The `href` attribute, when present. -/
  href : Option String
  /-- Whether the class list contains `active`. -/
  active : Bool
  deriving DecidableEq, Repr

/-- The elements that can be `document.activeElement`. -/
inductive Elem
  /-- Nothing is focused: `document.activeElement` is the body. -/
  | body
  /-- The theme toggle button appended by `initThemeToggle`. -/
  | themeToggle
  /-- The burger button appended by `initMobileNav`. -/
  | burger
  /-- The `i`-th `a` element of the nav, in document order. -/
  | navLink (i : Nat)
  /-- The `k`-th focusable element of the static markup outside the nav. -/
  | other (k : Nat)
  deriving DecidableEq, Repr

/-- The icon markup `<i class="bi bi-list"></i>`, identified by its class. -/
def listIcon : String := "bi bi-list"

/-- The icon markup `<i class="bi bi-x-lg"></i>`, identified by its class. -/
def closeIcon : String := "bi bi-x-lg"

/-- The part of the page the mobile navigation controller reads and writes. -/
structure MobilePage where
  /-- The `a` elements of the element with id `mainNav`; `none` when there is
  no such element. -/
  nav : Option (List Anchor)
  /-- Whether the nav carries the class `mobile-active`. -/
  mobileActive : Bool
  /-- The elements appended to `document.body`, in order: the burger button by
  its class name, the overlay `div`, which has no class, by the label `overlay`. -/
  bodyChildren : List String
  /-- The `innerHTML` of the burger button. -/
  burgerIcon : String
  /-- The `aria-label` attribute of the burger button. -/
  burgerLabel : Option String
  /-- The `aria-expanded` attribute of the burger button. -/
  ariaExpanded : Option String
  /-- The `display` style of the overlay, once it exists. -/
  overlayDisplay : Option String
  /-- Registered listeners, as target and event name. -/
  listeners : List (String × String)
  /-- The value of `document.activeElement`. -/
  focus : Elem
  /-- Number of focusable elements of the static markup before the nav. -/
  tabBefore : Nat
  /-- Number of focusable elements of the static markup after the nav. -/
  tabAfter : Nat
  deriving DecidableEq, Repr

/-- The anchors of the nav (empty when the nav is missing). -/
def MobilePage.anchors (d : MobilePage) : List Anchor := d.nav.getD []

/-- Indices of the anchors matched by `nav.querySelectorAll('a[href]')`, in
document order. -/
def hrefLinks (anchors : List Anchor) : List Nat :=
  (List.range anchors.length).filter
    (fun i => match anchors[i]? with
      | some a => a.href.isSome
      | none => false)

/-- Whether a call of `focus()` on the element moves the focus.  Buttons are
focusable; an `a` element is focusable exactly when it has an `href`
attribute (the script sets no `tabindex`). -/
def focusable (d : MobilePage) : Elem → Bool
  | .body => false
  | .themeToggle => true
  | .burger => true
  | .navLink i =>
    match d.anchors[i]? with
    | some a => a.href.isSome
    | none => false
  | .other _ => true

/-- The call `e.focus()`. -/
def focusOn (d : MobilePage) (e : Elem) : MobilePage :=
  if focusable d e then { d with focus := e } else d

/-- The closure `openNav` (lines 85-93). -/
def openNav (d : MobilePage) : MobilePage :=
  let d1 : MobilePage :=
    { d with mobileActive := true,
             overlayDisplay := some "block",
             burgerIcon := closeIcon,
             ariaExpanded := some "true" }
  -- const firstLink = nav.querySelector('a'); if (firstLink) firstLink.focus()
  match d1.anchors with
  | [] => d1
  | _ :: _ => focusOn d1 (.navLink 0)

/-- The closure `closeNav` (lines 95-101). -/
def closeNav (d : MobilePage) : MobilePage :=
  let d1 : MobilePage :=
    { d with mobileActive := false,
             overlayDisplay := some "none",
             burgerIcon := listIcon,
             ariaExpanded := some "false" }
  focusOn d1 .burger

/-- The click listener of the burger button (lines 103-105). -/
def onBurgerClick (d : MobilePage) : MobilePage :=
  if d.mobileActive then closeNav d else openNav d

/-- The click listener of the overlay (line 107). -/
def onOverlayClick (d : MobilePage) : MobilePage := closeNav d

/-- The click listener attached to every `a` of the nav (lines 109-111); a
click on an index that names no anchor of the nav reaches no listener. -/
def onLinkClick (i : Nat) (d : MobilePage) : MobilePage :=
  if i < d.anchors.length then closeNav d else d

/-- The keydown listener on the document (lines 114-141).  The second
component says whether `preventDefault` was called. -/
def onKeydown (key : String) (shiftKey : Bool) (d : MobilePage) : MobilePage × Bool :=
  if !d.mobileActive then (d, false)
  else if key = "Escape" then (closeNav d, false)
  else if key = "Tab" then
    let links := hrefLinks d.anchors
    -- if (!focusable.length) return; first = focusable[0]; last = focusable[length - 1]
    match links.head?, links.getLast? with
    | some first, some last =>
      if shiftKey then
        if d.focus = .navLink first then (focusOn d (.navLink last), true) else (d, false)
      else
        if d.focus = .navLink last then (focusOn d (.navLink first), true) else (d, false)
    | _, _ => (d, false)
  else (d, false)

/-- The body of `initMobileNav` (lines 70-83 and the listener registrations). -/
def initMobileNav (d : MobilePage) : MobilePage :=
  -- lines 70-75: the burger is created and appended
  let d1 : MobilePage :=
    { d with bodyChildren := d.bodyChildren ++ ["mobile-nav-toggle"],
             burgerLabel := some "Toggle navigation",
             burgerIcon := listIcon,
             ariaExpanded := some "false" }
  -- lines 77-78: const nav = getElementById('mainNav'); if (!nav) return
  match d1.nav with
  | none => d1
  | some anchors =>
    { d1 with bodyChildren := d1.bodyChildren ++ ["overlay"],
              overlayDisplay := some "none",
              listeners := d1.listeners ++ [("burger", "click"), ("overlay", "click")]
                ++ (List.range anchors.length).map (fun _ => ("nav a", "click"))
                ++ [("document", "keydown")] }

/-- The sequential focus navigation order of the page: the focusable elements
in document order.  The nav contributes its `a[href]` links; the two buttons
appended to the body by the script come last. -/
def tabOrder (d : MobilePage) : List Elem :=
  (List.range d.tabBefore).map Elem.other
    ++ (hrefLinks d.anchors).map Elem.navLink
    ++ (List.range d.tabAfter).map (fun k => Elem.other (d.tabBefore + k))
    ++ [Elem.themeToggle, Elem.burger]

/-- The element after the first occurrence of `x` in `l`, wrapping around to
the head; the head when `x` does not occur. -/
def nextIn (l : List Elem) (x : Elem) : Option Elem :=
  match l.dropWhile (fun y => y != x) with
  | _ :: y :: _ => some y
  | _ => l.head?

/-- The default action of the browser for a Tab key press: focus moves to
the next element of the tab order, or to the previous one with Shift. -/
def defaultTab (d : MobilePage) (shiftKey : Bool) : Elem :=
  let order := if shiftKey then (tabOrder d).reverse else tabOrder d
  (nextIn order d.focus).getD .body

/-- The events the mobile navigation reacts to. -/
inductive NavEvent
  | burgerClick
  | overlayClick
  | linkClick (i : Nat)
  | keydown (key : String) (shiftKey : Bool)
  deriving DecidableEq, Repr

/-- One event: the listener runs, and for a Tab key press whose listener did
not call `preventDefault` the default action of the browser follows. -/
def navStep (d : MobilePage) : NavEvent → MobilePage
  | .burgerClick => onBurgerClick d
  | .overlayClick => onOverlayClick d
  | .linkClick i => onLinkClick i d
  | .keydown key shiftKey =>
    let r := onKeydown key shiftKey d
    if key = "Tab" ∧ r.2 = false then { r.1 with focus := defaultTab r.1 shiftKey }
    else r.1

/-- The states reachable by events from the state that `initMobileNav` leaves
on the page `d0`. -/
inductive NavReachable (d0 : MobilePage) : MobilePage → Prop
  | init : NavReachable d0 (initMobileNav d0)
  | step (d : MobilePage) (e : NavEvent) : NavReachable d0 d → NavReachable d0 (navStep d e)

/-- Whether keyboard focus is on an element inside the nav. -/
def focusInNav (d : MobilePage) : Bool :=
  match d.focus with
  | .navLink i => decide (i < d.anchors.length)
  | _ => false

/-- The Closed state of the mobile navigation, as left by `closeNav`. -/
def IsClosed (d : MobilePage) : Prop :=
  d.mobileActive = false ∧ d.overlayDisplay = some "none"
    ∧ d.ariaExpanded = some "false" ∧ d.focus = .burger

/-- A page without an element of id `mainNav`, before the script runs. -/
def pageWithoutNav : MobilePage :=
  { nav := none, mobileActive := false, bodyChildren := [], burgerIcon := "",
    burgerLabel := none, ariaExpanded := none, overlayDisplay := none,
    listeners := [], focus := .body, tabBefore := 0, tabAfter := 0 }

/-- The Open state of a page whose nav holds two links with an `href`, with
focus on the first link. -/
def openTwoLinks : MobilePage :=
  { nav := some [{ href := some "#about", active := false },
                 { href := some "#work", active := false }],
    mobileActive := true, bodyChildren := ["mobile-nav-toggle", "overlay"],
    burgerIcon := closeIcon, burgerLabel := some "Toggle navigation",
    ariaExpanded := some "true", overlayDisplay := some "block",
    listeners := [], focus := .navLink 0, tabBefore := 1, tabAfter := 1 }

/-- A page whose nav holds no `a` element, before the script runs. -/
def pageNavWithoutLinks : MobilePage :=
  { nav := some [], mobileActive := false, bodyChildren := [], burgerIcon := "",
    burgerLabel := none, ariaExpanded := none, overlayDisplay := none,
    listeners := [], focus := .body, tabBefore := 0, tabAfter := 0 }

/-- A page whose nav holds two links with an `href`, before the script runs. -/
def pageTwoLinks : MobilePage :=
  { nav := some [{ href := some "#about", active := false },
                 { href := some "#work", active := false }],
    mobileActive := false, bodyChildren := [], burgerIcon := "",
    burgerLabel := none, ariaExpanded := none, overlayDisplay := none,
    listeners := [], focus := .body, tabBefore := 1, tabAfter := 1 }

/-- A page whose nav holds an `a` without `href` followed by a link, with one
focusable element before the nav. -/
def pageBrandAnchor : MobilePage :=
  { nav := some [{ href := none, active := false },
                 { href := some "#about", active := false }],
    mobileActive := false, bodyChildren := [], burgerIcon := "",
    burgerLabel := none, ariaExpanded := none, overlayDisplay := none,
    listeners := [], focus := .body, tabBefore := 1, tabAfter := 0 }

/-- The invariant behind focus containment: the nav is the one of the page the
script started on, and while it carries `mobile-active` the focus is on one of
its `a[href]` links. -/
def FocusInv (d0 d : MobilePage) : Prop :=
  d.nav = d0.nav ∧
    (d.mobileActive = true → ∃ i ∈ hrefLinks d.anchors, d.focus = .navLink i)

/-! ## Scroll spy (`initNavScrollSpy`, script.js lines 154-194) -/

/-- For an anchor matched by `a[href^="#"]`, the value of
`link.getAttribute('href').slice(1)`; `none` for any other anchor. -/
def hashTarget (a : Anchor) : Option String :=
  match a.href with
  | none => none
  | some h =>
    match h.data with
    | '#' :: rest => some (String.mk rest)
    | _ => none

/-- Whether the anchor is matched by the selector `a[href^="#"]`. -/
def isHashLink (a : Anchor) : Bool := (hashTarget a).isSome

/-- One `IntersectionObserverEntry`.  The target is an element found by
`document.getElementById`, identified by its id. -/
structure SpyEntry where
  target : String
  isIntersecting : Bool
  deriving DecidableEq, Repr

/-- The part of the page the scroll spy reads and writes. -/
structure SpyPage where
  /-- The `a` elements of the element with id `mainNav`; `none` when there is
  no such element. -/
  nav : Option (List Anchor)
  /-- The ids for which `document.getElementById` finds an element. -/
  ids : List String
  /-- The array `sections`: pairs of a link (its index among the anchors of
  the nav) and a section (its id), in push order. -/
  sections : List (Nat × String)
  /-- Indices of the links that carry the smooth-scroll click listener. -/
  clickListeners : List Nat
  /-- The sections watched by the observer. -/
  observed : List String
  deriving DecidableEq, Repr

/-- The anchors of the nav (empty when the nav is missing). -/
def SpyPage.anchors (d : SpyPage) : List Anchor := d.nav.getD []

/-- The loop `links.forEach` of lines 161-175 over the anchors from index `i`
on: returns the pairs pushed to `sections` and the links given a listener. -/
def collectSections (ids : List String) : Nat → List Anchor → List (Nat × String) × List Nat
  | _, [] => ([], [])
  | i, a :: rest =>
    let r := collectSections ids (i + 1) rest
    match hashTarget a with
    | none => r                      -- not selected by a[href^="#"]
    | some targetId =>
      if targetId = "" then r        -- if (!targetId) return
      else if ids.contains targetId then ((i, targetId) :: r.1, i :: r.2)
      else (r.1, i :: r.2)

/-- The body of `initNavScrollSpy`. -/
def initNavScrollSpy (d : SpyPage) : SpyPage :=
  match d.nav with
  | none => d
  | some anchors =>
    let r := collectSections d.ids 0 anchors
    { d with sections := r.1,
             clickListeners := d.clickListeners ++ r.2,
             -- sections.forEach((section) => observer.observe(section))
             observed := r.1.foldl
               (fun acc s => if acc.contains s.2 then acc else acc ++ [s.2]) [] }

/-- The statement `links.forEach((l) => l.classList.remove('active'))`. -/
def clearActive (anchors : List Anchor) : List Anchor :=
  anchors.map (fun a => if isHashLink a then { a with active := false } else a)

/-- The statement `match.link.classList.add('active')` for the link of index `i`. -/
def addActive (i : Nat) (anchors : List Anchor) : List Anchor :=
  match anchors[i]? with
  | some a => anchors.set i { a with active := true }
  | none => anchors

/-- The observer callback applied to one entry (lines 180-188). -/
def onSpyEntry (d : SpyPage) (entry : SpyEntry) : SpyPage :=
  if entry.isIntersecting then
    match d.sections.find? (fun s => s.2 == entry.target) with
    | some m => { d with nav := d.nav.map (fun anchors => addActive m.1 (clearActive anchors)) }
    | none => d
  else d

/-- The observer callback applied to a batch: `entries.forEach`. -/
def spyCallback (d : SpyPage) (entries : List SpyEntry) : SpyPage :=
  entries.foldl onSpyEntry d

/-- The target of the last intersecting entry of a sequence of entries. -/
def lastIntersecting (entries : List SpyEntry) : Option String :=
  ((entries.filter (fun e => e.isIntersecting)).getLast?).map (fun e => e.target)

/-- A page without an element of id `mainNav`, as seen by the scroll spy. -/
def spyPageWithoutNav : SpyPage :=
  { nav := none, ids := ["about"], sections := [], clickListeners := [], observed := [] }

/-- All the batches delivered by the observer, in order of delivery. -/
def spyRun (d : SpyPage) (batches : List (List SpyEntry)) : SpyPage :=
  batches.foldl spyCallback d

/-- Indices of the links of `links` (the anchors matched by `a[href^="#"]`)
that carry the class `active`. -/
def activeLinks (anchors : List Anchor) : List Nat :=
  (List.range anchors.length).filter
    (fun i => match anchors[i]? with
      | some a => isHashLink a && a.active
      | none => false)

/-- Indices of the anchors of the nav that carry the class `active`, whether
or not the selector `a[href^="#"]` matches them. -/
def activeAnchors (anchors : List Anchor) : List Nat :=
  (List.range anchors.length).filter
    (fun i => match anchors[i]? with
      | some a => a.active
      | none => false)

/-- A page whose nav holds a link to another page, marked active in the
markup, followed by two links to sections of this page. -/
def spyPageBlog : SpyPage :=
  { nav := some [{ href := some "/blog", active := true },
                 { href := some "#about", active := false },
                 { href := some "#work", active := false }],
    ids := ["about", "work"],
    sections := [], clickListeners := [], observed := [] }

/-- One batch in which the section `about` enters. -/
def spyBatchAbout : List (List SpyEntry) :=
  [[{ target := "about", isIntersecting := true }]]

/-- A page with three links to three sections, the first link marked active
in the markup. -/
def spyPageThree : SpyPage :=
  { nav := some [{ href := some "#about", active := true },
                 { href := some "#work", active := false },
                 { href := some "#contact", active := false }],
    ids := ["about", "work", "contact"],
    sections := [], clickListeners := [], observed := [] }

/-- Two batches: `about` enters, then `work` enters while `contact` does not. -/
def spyBatches : List (List SpyEntry) :=
  [[{ target := "about", isIntersecting := true }],
   [{ target := "work", isIntersecting := true },
    { target := "contact", isIntersecting := false }]]

/-- What the observer callback keeps fixed: the array `sections`, and the
`href` of every anchor of the nav. -/
def SpyInv (anchors : List Anchor) (s0 s : SpyPage) : Prop :=
  s.sections = s0.sections ∧
    ∃ l, s.nav = some l ∧ l.map (fun a => a.href) = anchors.map (fun a => a.href)

/-- What the observer callback leaves alone: every pair of `sections` names a
link matched by `a[href^="#"]`, and the anchors of the nav that the selector
does not match are as in the markup. -/
def SpyFrame (anchors : List Anchor) (s : SpyPage) : Prop :=
  (∀ m ∈ s.sections, ∃ a, anchors[m.1]? = some a ∧ isHashLink a = true) ∧
    ∃ l, s.nav = some l ∧
      ∀ (i : Nat) (a : Anchor), anchors[i]? = some a → isHashLink a = false → l[i]? = some a

/-! ## Entrance animation (`initSectionAnimations`, script.js lines 202-225) -/

/-- An element of class `section-card`. -/
structure Card where
  /-- The `id` of the element. -/
  id : String
  /-- Whether the class list contains `fade-hidden`. -/
  fadeHidden : Bool
  /-- Whether the class list contains `visible`. -/
  visible : Bool
  deriving DecidableEq, Repr

/-- The filter of line 204: `!['about', 'experience'].includes(card.id)`. -/
def eligible (c : Card) : Bool := !(["about", "experience"].contains c.id)

/-- The part of the page the entrance animation reads and writes. -/
structure CardsPage where
  /-- The result of `document.querySelectorAll('.section-card')`. -/
  cards : List Card
  /-- Indices of the cards watched by the observer. -/
  observed : List Nat
  deriving DecidableEq, Repr

/-- An `IntersectionObserverEntry` whose target is the card of index `target`. -/
structure CardEntry where
  target : Nat
  isIntersecting : Bool
  deriving DecidableEq, Repr

/-- The body of `initSectionAnimations`. -/
def initSectionAnimations (d : CardsPage) : CardsPage :=
  let cards := (List.range d.cards.length).filter
    (fun i => match d.cards[i]? with
      | some c => eligible c
      | none => false)
  -- if (!cards.length) return
  if cards.isEmpty then d
  else
    { cards := d.cards.map (fun c => if eligible c then { c with fadeHidden := true } else c),
      -- cards.forEach((card) => observer.observe(card))
      observed := cards }

/-- The observer callback applied to one entry (lines 213-219). -/
def onCardEntry (d : CardsPage) (entry : CardEntry) : CardsPage :=
  if entry.isIntersecting then
    { cards := match d.cards[entry.target]? with
        | some c => d.cards.set entry.target { c with fadeHidden := false, visible := true }
        | none => d.cards,
      -- observer.unobserve(entry.target)
      observed := d.observed.filter (fun i => i != entry.target) }
  else d

/-- The observer callback applied to a batch: `entries.forEach`. -/
def cardsCallback (d : CardsPage) (entries : List CardEntry) : CardsPage :=
  entries.foldl onCardEntry d

/-- Number of entries of the sequence at which the card of index `i` goes from
carrying `fade-hidden` to carrying `visible` without `fade-hidden`. -/
def revealCount (i : Nat) : CardsPage → List CardEntry → Nat
  | _, [] => 0
  | d, e :: rest =>
    let d1 := onCardEntry d e
    let fired : Bool :=
      match d.cards[i]?, d1.cards[i]? with
      | some c, some c1 => c.fadeHidden && !c1.fadeHidden && c1.visible
      | _, _ => false
    (if fired then 1 else 0) + revealCount i d1 rest

/-- Whether some entry of the sequence is an intersecting entry for the card
of index `i`. -/
def hits (i : Nat) (es : List CardEntry) : Bool :=
  es.any (fun e => e.isIntersecting && e.target == i)

/-- The class changes of lines 215-216 applied to a card. -/
def reveal (c : Card) : Card := { c with fadeHidden := false, visible := true }

/-- A page with the two always-visible cards and two other cards. -/
def cardsPageFour : CardsPage :=
  { cards := [{ id := "about", fadeHidden := false, visible := false },
              { id := "projects", fadeHidden := false, visible := false },
              { id := "experience", fadeHidden := false, visible := false },
              { id := "contact", fadeHidden := false, visible := false }],
    observed := [] }

/-- Entries in which the card of index 1 enters, leaves and enters again. -/
def cardEntriesInOut : List CardEntry :=
  [{ target := 3, isIntersecting := false }, { target := 1, isIntersecting := true },
   { target := 1, isIntersecting := false }, { target := 1, isIntersecting := true }]

/-! ## Particles (`initParticles`, script.js lines 268-299)

JavaScript numbers are IEEE 754 binary64 values.  Every finite non-negative
binary64 value is an integer multiple of `2^-1074`, so such a value `v` is
represented here by the natural number `v * 2^1074`.  All the values computed
by `initParticles` are non-negative and below `128`, far from overflow. -/

/-- The representation of the number `1`. -/
def one64 : Nat := 2 ^ 1074

/-- The representation of the integer `k`. -/
def ofNat64 (k : Nat) : Nat := k * one64

/-- Whether a natural number represents a binary64 value: at most 53
significant bits. -/
def isDouble (n : Nat) : Bool :=
  decide (n < 2 ^ 53) || n % 2 ^ (Nat.log2 n - 52) == 0

/-- Rounding of an exact result to binary64, to nearest with ties to even:
the result keeps the 53 leading bits of `x`. -/
def roundDouble (x : Nat) : Nat :=
  let b := Nat.log2 x
  if b ≤ 52 then x
  else
    let unit := 2 ^ (b - 52)
    let q := x / unit
    let r := x % unit
    let half := unit / 2
    if r < half then q * unit
    else if half < r then (q + 1) * unit
    else if q % 2 = 0 then q * unit
    else (q + 1) * unit

/-- The binary64 product `a * k` of a value and an integer constant `k`. -/
def mulConst (a k : Nat) : Nat := roundDouble (a * k)

/-- The binary64 sum `a + b`. -/
def add64 (a b : Nat) : Nat := roundDouble (a + b)

/-- A `div.particle` with the style properties set by the loop body. -/
structure Particle where
  className : String
  /-- The number in `style.left`, a percentage. -/
  left : Nat
  /-- The number in `style.animationDelay`, in seconds. -/
  animationDelay : Nat
  /-- The number in `style.animationDuration`, in seconds. -/
  animationDuration : Nat
  /-- The number in `style.width`, in pixels. -/
  width : Nat
  /-- The number in `style.height`, in pixels. -/
  height : Nat
  background : String
  deriving DecidableEq, Repr

/-- The constant `PARTICLE_COUNT`. -/
def PARTICLE_COUNT : Nat := 30

/-- One iteration of the loop (lines 278-294).  The iteration of index `i`
makes the draws `5 * i` to `5 * i + 4` of `Math.random`, in source order. -/
def makeParticle (random : Nat → Nat) (i : Nat) : Particle :=
  let size := add64 (ofNat64 2) (mulConst (random (5 * i + 3)) 3)
  let isAccent : Bool := decide (one64 / 2 < random (5 * i + 4))
  { className := "particle",
    left := mulConst (random (5 * i)) 100,
    animationDelay := mulConst (random (5 * i + 1)) 8,
    animationDuration := add64 (ofNat64 6) (mulConst (random (5 * i + 2)) 6),
    width := size,
    height := size,
    background := if isAccent then "var(--accent-light)" else "var(--primary-light)" }

/-- The part of the page `initParticles` reads and writes: the children of
the element with id `particles`, or `none` when there is no such element. -/
structure ParticlesPage where
  container : Option (List Particle)
  deriving DecidableEq, Repr

/-- The body of `initParticles`; `random k` is the result of the `k`-th call
of `Math.random`. -/
def initParticles (random : Nat → Nat) (d : ParticlesPage) : ParticlesPage :=
  match d.container with
  | none => d
  | some children =>
    let fragment := (List.range PARTICLE_COUNT).map (makeParticle random)
    { container := some (children ++ fragment) }

/-- A draw of `Math.random`: a binary64 value `r` with `0 <= r < 1`. -/
def isDraw (r : Nat) : Bool := isDouble r && decide (r < one64)

/-- The largest binary64 value below `1`, namely `1 - 2^-53`. -/
def maxDraw : Nat := (2 ^ 53 - 1) * 2 ^ 1021

/-- The binary64 value `0.5`. -/
def halfDraw : Nat := 2 ^ 1073

/-! ## Startup boundary (DOMContentLoaded handler, script.js lines 309-326) -/

/-- The six controllers called by the startup routine. -/
inductive Controller
  | initThemeToggle
  | initMobileNav
  | initNavScrollSpy
  | initSectionAnimations
  | initGlassTiltEffect
  | initParticles
  deriving DecidableEq, Repr

/-- The calls inside the `try` block, in source order (lines 312-321). -/
def startupSequence : List Controller :=
  [.initThemeToggle, .initMobileNav, .initNavScrollSpy,
   .initSectionAnimations, .initGlassTiltEffect, .initParticles]

/-- What one run of the startup routine did. -/
structure StartupTrace where
  /-- Controllers that were called, in order. -/
  invoked : List Controller
  /-- Messages passed to `console.warn`. -/
  warnings : List String
  /-- An exception leaving the handler, if any. -/
  escaped : Option Controller
  deriving DecidableEq, Repr

/-- Sequential execution of a block of calls: each call is made in turn and the
first one that throws ends the block.  Returns the calls made and the thrower. -/
def runBlock (throws : Controller → Bool) :
    List Controller → List Controller × Option Controller
  | [] => ([], none)
  | c :: rest =>
    if throws c then ([c], some c)
    else
      let r := runBlock throws rest
      (c :: r.1, r.2)

/-- The DOMContentLoaded handler: one `try` around the whole sequence, and a
`catch` that logs a warning. -/
def onDOMContentLoaded (throws : Controller → Bool) : StartupTrace :=
  match runBlock throws startupSequence with
  | (ran, none) => { invoked := ran, warnings := [], escaped := none }
  | (ran, some _) =>
    { invoked := ran,
      warnings := ["[Portfolio Execution Error]: Module initialization boundary caught an exception."],
      escaped := none }

/-! ## Theorems: startup boundary -/

theorem runBlock_first_throw (throws : Controller → Bool) (pre post : List Controller)
    (c : Controller) (hpre : ∀ x ∈ pre, throws x = false) (hc : throws c = true) :
    runBlock throws (pre ++ c :: post) = (pre ++ [c], some c) := by
  induction pre with
  | nil => simp [runBlock, hc]
  | cons a pre ih =>
    have ha : throws a = false := hpre a (by simp)
    have ih2 := ih (fun x hx => hpre x (by simp [hx]))
    simp [runBlock, ha, ih2]

theorem startupSequence_nodup : startupSequence.Nodup := by decide

/-- C1 (as stated, refuted): when `initThemeToggle` throws, the failure is
logged and nothing escapes, but no other controller is called: only
`initThemeToggle` was invoked, and `initParticles` in particular was not. -/
theorem startup_isolation_counterexample :
    (onDOMContentLoaded (fun c => decide (c = Controller.initThemeToggle))).warnings.length = 1
    ∧ (onDOMContentLoaded (fun c => decide (c = Controller.initThemeToggle))).escaped = none
    ∧ (onDOMContentLoaded (fun c => decide (c = Controller.initThemeToggle))).invoked
        = [Controller.initThemeToggle]
    ∧ Controller.initParticles ∉
        (onDOMContentLoaded (fun c => decide (c = Controller.initThemeToggle))).invoked := by
  decide

/-- C1 (amended): if `c` is the first controller of the startup sequence that
throws, then exactly one warning is logged, nothing escapes the handler, the
controllers called are exactly those before `c` followed by `c`, and no
controller after `c` is called. -/
theorem startup_boundary (throws : Controller → Bool) (pre post : List Controller)
    (c : Controller) (hseq : startupSequence = pre ++ c :: post)
    (hpre : ∀ x ∈ pre, throws x = false) (hc : throws c = true) :
    (onDOMContentLoaded throws).warnings.length = 1
    ∧ (onDOMContentLoaded throws).escaped = none
    ∧ (onDOMContentLoaded throws).invoked = pre ++ [c]
    ∧ ∀ x ∈ post, x ∉ (onDOMContentLoaded throws).invoked := by
  have hrun := runBlock_first_throw throws pre post c hpre hc
  have hnd := startupSequence_nodup
  rw [hseq] at hnd
  have hinv : (onDOMContentLoaded throws).invoked = pre ++ [c] := by
    simp [onDOMContentLoaded, hseq, hrun]
  refine ⟨by simp [onDOMContentLoaded, hseq, hrun], by simp [onDOMContentLoaded, hseq, hrun],
    hinv, ?_⟩
  intro x hx hmem
  rw [hinv] at hmem
  rw [List.nodup_append] at hnd
  obtain ⟨_, hcp, hdis⟩ := hnd
  rw [List.nodup_cons] at hcp
  rcases List.mem_append.mp hmem with h | h
  · exact hdis h (List.mem_cons_of_mem _ hx)
  · have hxc : x = c := by simpa using h
    exact hcp.1 (hxc ▸ hx)

/-- Witness of `startup_boundary`: `initNavScrollSpy` is the first to throw. -/
theorem startup_boundary_witness :
    (onDOMContentLoaded (fun c => decide (c = Controller.initNavScrollSpy))).warnings.length = 1
    ∧ (onDOMContentLoaded (fun c => decide (c = Controller.initNavScrollSpy))).escaped = none
    ∧ (onDOMContentLoaded (fun c => decide (c = Controller.initNavScrollSpy))).invoked
        = [Controller.initThemeToggle, Controller.initMobileNav] ++ [Controller.initNavScrollSpy]
    ∧ ∀ x ∈ [Controller.initSectionAnimations, Controller.initGlassTiltEffect,
          Controller.initParticles],
        x ∉ (onDOMContentLoaded (fun c => decide (c = Controller.initNavScrollSpy))).invoked :=
  startup_boundary (fun c => decide (c = Controller.initNavScrollSpy))
    [Controller.initThemeToggle, Controller.initMobileNav]
    [Controller.initSectionAnimations, Controller.initGlassTiltEffect, Controller.initParticles]
    Controller.initNavScrollSpy (by decide) (by decide) (by decide)

/-! ## Theorems: theme toggle -/

/-- C4: when the storage read throws or returns no value, `initThemeToggle`
returns normally, the body carries `dark-theme` and `aria-pressed` is `true`. -/
theorem theme_default_dark (readThrows : Bool) (d : ThemePage)
    (h : readThrows = true ∨ d.stored = none) :
    ∃ d1, initThemeToggle readThrows d = .ok d1
      ∧ d1.bodyDark = true ∧ d1.ariaPressed = some "true" := by
  rcases h with h | h
  · subst h
    simp [initThemeToggle, getItem]
  · cases readThrows <;> simp [initThemeToggle, getItem, h]

/-- Witness of `theme_default_dark`: an empty store whose read succeeds, on a
light page. -/
theorem theme_default_dark_witness :
    ∃ d1, initThemeToggle false
        { bodyDark := false, bodyChildren := [], toggleIcon := "", ariaPressed := none,
          ariaLabel := none, stored := none, warnings := [] } = .ok d1
      ∧ d1.bodyDark = true ∧ d1.ariaPressed = some "true" :=
  theme_default_dark false _ (Or.inr rfl)

/-- C3 (as stated, refuted): on a page whose body carries `dark-theme` in the
markup while the store holds `light`, `initThemeToggle` leaves the class in
place with `aria-pressed` set to `false`; two clicks later the class is back
but `aria-pressed` is `true`, not the value it had before the first click. -/
theorem theme_double_click_counterexample :
    ∃ d0 d2, initThemeToggle false darkMarkupLightStore = .ok d0
      ∧ (themeClick false d0 >>= themeClick false) = .ok d2
      ∧ d0.bodyDark = true ∧ d0.ariaPressed = some "false"
      ∧ d2.bodyDark = d0.bodyDark
      ∧ d2.ariaPressed = some "true"
      ∧ d2.ariaPressed ≠ d0.ariaPressed := by
  refine ⟨_, _, rfl, rfl, ?_⟩
  decide

/-- C3 (amended): for every prior state and every outcome of the two storage
writes, two clicks return normally, restore the `dark-theme` class, and leave
`aria-pressed` equal to `true` or `false` according to the class; so
`aria-pressed` is restored whenever it agreed with the class before the first
click. -/
theorem theme_double_click (d : ThemePage) (w1 w2 : Bool) :
    ∃ d2, (themeClick w1 d >>= themeClick w2) = .ok d2
      ∧ d2.bodyDark = d.bodyDark
      ∧ d2.ariaPressed = some (pressedOf d.bodyDark)
      ∧ (d.ariaPressed = some (pressedOf d.bodyDark) → d2.ariaPressed = d.ariaPressed) := by
  cases w1 <;> cases w2 <;>
    simp [themeClick, setItem, bind, Except.bind] <;> intro h <;> exact h.symm

/-- Witness of `theme_double_click`: the state left by `initThemeToggle`
with an empty store, where `aria-pressed` agrees with the class; the first
write throws. -/
theorem theme_double_click_witness :
    ∃ d2, (themeClick true
        { bodyDark := true, bodyChildren := ["theme-toggle"], toggleIcon := sunIcon,
          ariaPressed := some "true", ariaLabel := some "Toggle dark mode",
          stored := none, warnings := [] } >>= themeClick false) = .ok d2
      ∧ d2.bodyDark = true
      ∧ d2.ariaPressed = some "true" := by
  obtain ⟨d2, h1, h2, h3, _⟩ := theme_double_click
    { bodyDark := true, bodyChildren := ["theme-toggle"], toggleIcon := sunIcon,
      ariaPressed := some "true", ariaLabel := some "Toggle dark mode",
      stored := none, warnings := [] } true false
  exact ⟨d2, h1, h2, h3⟩

/-! ## Theorems: missing root elements -/

/-- C2 (the code departs from the claim): on a page without an element of id
`mainNav`, `initMobileNav` has already appended the burger button to the body
when it returns, so the page is not left as it was; no listener is registered
for the button.  On pages without their root element, `initNavScrollSpy` and
`initParticles` do leave the page as it was. -/
theorem initMobileNav_missing_nav_not_noop :
    (initMobileNav pageWithoutNav).bodyChildren = ["mobile-nav-toggle"]
    ∧ (initMobileNav pageWithoutNav).ariaExpanded = some "false"
    ∧ (initMobileNav pageWithoutNav).listeners = []
    ∧ initMobileNav pageWithoutNav ≠ pageWithoutNav
    ∧ initNavScrollSpy spyPageWithoutNav = spyPageWithoutNav
    ∧ initParticles (fun _ => 0) { container := none } = { container := none } := by
  decide

/-! ## Theorems: mobile navigation -/

theorem focusOn_burger (d : MobilePage) : focusOn d .burger = { d with focus := .burger } := by
  simp [focusOn, focusable]

theorem closeNav_closed (d : MobilePage) : IsClosed (closeNav d) := by
  simp [closeNav, focusOn_burger, IsClosed]

/-- C5: in every state where the nav carries `mobile-active`, a click on the
burger, a click on the overlay, a click on any `a` of the nav and a keydown
with key `Escape` each lead to the Closed state: `mobile-active` removed,
overlay display `none`, `aria-expanded` `false`, focus on the burger. -/
theorem closing_triggers_close (d : MobilePage) (hopen : d.mobileActive = true) :
    IsClosed (navStep d .burgerClick)
    ∧ IsClosed (navStep d .overlayClick)
    ∧ (∀ i, i < d.anchors.length → IsClosed (navStep d (.linkClick i)))
    ∧ (∀ shiftKey, IsClosed (navStep d (.keydown "Escape" shiftKey))) := by
  refine ⟨?_, ?_, ?_, ?_⟩
  · simp [navStep, onBurgerClick, hopen, closeNav_closed]
  · simp [navStep, onOverlayClick, closeNav_closed]
  · intro i hi
    simp [navStep, onLinkClick, hi, closeNav_closed]
  · intro shiftKey
    have hne : ¬ ("Escape" = "Tab") := by decide
    simp [navStep, onKeydown, hopen, hne, closeNav_closed]

/-- Witness of `closing_triggers_close`: the Open state of a nav with two links. -/
theorem closing_triggers_close_witness :
    IsClosed (navStep openTwoLinks .burgerClick)
    ∧ IsClosed (navStep openTwoLinks .overlayClick)
    ∧ (∀ i, i < openTwoLinks.anchors.length → IsClosed (navStep openTwoLinks (.linkClick i)))
    ∧ (∀ shiftKey, IsClosed (navStep openTwoLinks (.keydown "Escape" shiftKey))) :=
  closing_triggers_close openTwoLinks (by decide)

theorem mem_hrefLinks_focusable (d : MobilePage) (i : Nat) (h : i ∈ hrefLinks d.anchors) :
    focusable d (.navLink i) = true := by
  simp only [hrefLinks, List.mem_filter] at h
  simpa [focusable] using h.2

/-- C6: while the nav carries `mobile-active` and has at least one `a[href]`
link, a Tab keydown without Shift with focus on the last such link moves
focus to the first and calls `preventDefault`, and a Tab keydown with Shift
with focus on the first moves focus to the last and calls `preventDefault`;
while the nav does not carry `mobile-active`, the keydown listener changes
nothing and does not call `preventDefault`. -/
theorem focus_trap_wrap (d : MobilePage) (key : String) (shiftKey : Bool) :
    (d.mobileActive = true → ∀ first last,
        (hrefLinks d.anchors).head? = some first →
        (hrefLinks d.anchors).getLast? = some last →
        (d.focus = .navLink last →
          onKeydown "Tab" false d = ({ d with focus := .navLink first }, true))
        ∧ (d.focus = .navLink first →
          onKeydown "Tab" true d = ({ d with focus := .navLink last }, true)))
    ∧ (d.mobileActive = false → onKeydown key shiftKey d = (d, false)) := by
  constructor
  · intro hopen first last hf hl
    have hne : ¬ ("Tab" = "Escape") := by decide
    have hfm : first ∈ hrefLinks d.anchors := List.mem_of_mem_head? hf
    have hlm : last ∈ hrefLinks d.anchors := List.mem_of_mem_getLast? hl
    have hff := mem_hrefLinks_focusable d first hfm
    have hlf := mem_hrefLinks_focusable d last hlm
    constructor
    · intro hfocus
      simp [onKeydown, hopen, hne, hf, hl, hfocus, focusOn, hff]
    · intro hfocus
      simp [onKeydown, hopen, hne, hf, hl, hfocus, focusOn, hlf]
  · intro hclosed
    simp [onKeydown, hclosed]

/-- Witness of `focus_trap_wrap`: the Open state of a nav with two links. -/
theorem focus_trap_wrap_witness :
    (onKeydown "Tab" false { openTwoLinks with focus := .navLink 1 }
        = ({ openTwoLinks with focus := .navLink 0 }, true))
    ∧ (onKeydown "Tab" true openTwoLinks
        = ({ openTwoLinks with focus := .navLink 1 }, true))
    ∧ (onKeydown "Tab" false (closeNav openTwoLinks) = (closeNav openTwoLinks, false)) :=
  ⟨((focus_trap_wrap { openTwoLinks with focus := .navLink 1 } "Tab" false).1
      (by decide) 0 1 (by decide) (by decide)).1 (by decide),
   ((focus_trap_wrap openTwoLinks "Tab" false).1
      (by decide) 0 1 (by decide) (by decide)).2 (by decide),
   (focus_trap_wrap (closeNav openTwoLinks) "Tab" false).2 (by decide)⟩

/-! ## Theorems: focus containment -/

theorem nextIn_mid (pre mid post : List Elem) (x : Elem) (hpre : x ∉ pre) (hx : x ∈ mid)
    (hnd : mid.Nodup) (hlast : mid.getLast? ≠ some x) :
    ∃ y ∈ mid, nextIn (pre ++ mid ++ post) x = some y := by
  obtain ⟨m1, m2, rfl⟩ := List.append_of_mem hx
  have hx1 : x ∉ m1 := by
    intro h
    rw [List.nodup_append] at hnd
    exact hnd.2.2 h (by simp)
  cases m2 with
  | nil => exact absurd (by simp) hlast
  | cons y m2 =>
    refine ⟨y, by simp, ?_⟩
    have hsplit : pre ++ (m1 ++ x :: y :: m2) ++ post
        = (pre ++ m1) ++ (x :: y :: (m2 ++ post)) := by simp
    have hdrop : ∀ a ∈ pre ++ m1, (fun z => z != x) a = true := by
      intro a ha
      have hne : a ≠ x := by
        rintro rfl
        rcases List.mem_append.mp ha with h | h
        · exact hpre h
        · exact hx1 h
      simpa using hne
    unfold nextIn
    rw [hsplit, List.dropWhile_append_of_pos hdrop]
    simp

theorem hrefLinks_nodup (anchors : List Anchor) : (hrefLinks anchors).Nodup :=
  List.Nodup.filter _ (List.nodup_range _)

theorem navLinks_nodup (anchors : List Anchor) :
    ((hrefLinks anchors).map Elem.navLink).Nodup :=
  List.Nodup.map (fun a b h => by cases h; rfl) (hrefLinks_nodup anchors)

theorem tab_default_stays_in_nav (d : MobilePage) (i : Nat) (shiftKey : Bool)
    (hi : i ∈ hrefLinks d.anchors) (hfocus : d.focus = .navLink i)
    (hedge : (if shiftKey then (hrefLinks d.anchors).head? else (hrefLinks d.anchors).getLast?)
      ≠ some i) :
    ∃ j ∈ hrefLinks d.anchors, defaultTab d shiftKey = .navLink j := by
  have hmem : Elem.navLink i ∈ (hrefLinks d.anchors).map Elem.navLink :=
    List.mem_map.mpr ⟨i, hi, rfl⟩
  cases shiftKey with
  | false =>
    simp only [Bool.false_eq_true, if_false] at hedge
    have hord : tabOrder d = (List.range d.tabBefore).map Elem.other
        ++ (hrefLinks d.anchors).map Elem.navLink
        ++ ((List.range d.tabAfter).map (fun k => Elem.other (d.tabBefore + k))
            ++ [Elem.themeToggle, Elem.burger]) := by
      simp [tabOrder]
    obtain ⟨y, hy, hnext⟩ := nextIn_mid ((List.range d.tabBefore).map Elem.other)
      ((hrefLinks d.anchors).map Elem.navLink)
      ((List.range d.tabAfter).map (fun k => Elem.other (d.tabBefore + k))
            ++ [Elem.themeToggle, Elem.burger])
      (.navLink i) (by simp) hmem (navLinks_nodup _)
      (by
        rw [List.getLast?_map]
        intro h
        apply hedge
        cases hl : (hrefLinks d.anchors).getLast? with
        | none => rw [hl] at h; simp at h
        | some j =>
          rw [hl] at h
          simp at h
          rw [h])
    obtain ⟨j, hj, rfl⟩ := List.mem_map.mp hy
    refine ⟨j, hj, ?_⟩
    simp only [defaultTab, Bool.false_eq_true, if_false, hfocus]
    rw [hord, hnext]
    rfl
  | true =>
    simp only [if_true] at hedge
    have hord : (tabOrder d).reverse
        = ([Elem.themeToggle, Elem.burger].reverse
            ++ ((List.range d.tabAfter).map (fun k => Elem.other (d.tabBefore + k))).reverse)
        ++ ((hrefLinks d.anchors).map Elem.navLink).reverse
        ++ ((List.range d.tabBefore).map Elem.other).reverse := by
      simp [tabOrder]
    obtain ⟨y, hy, hnext⟩ := nextIn_mid
      ([Elem.themeToggle, Elem.burger].reverse
            ++ ((List.range d.tabAfter).map (fun k => Elem.other (d.tabBefore + k))).reverse)
      (((hrefLinks d.anchors).map Elem.navLink).reverse)
      (((List.range d.tabBefore).map Elem.other).reverse)
      (.navLink i) (by simp) (List.mem_reverse.mpr hmem)
      (List.nodup_reverse.mpr (navLinks_nodup _))
      (by
        rw [List.getLast?_reverse, List.head?_map]
        intro h
        apply hedge
        cases hl : (hrefLinks d.anchors).head? with
        | none => rw [hl] at h; simp at h
        | some j =>
          rw [hl] at h
          simp at h
          rw [h])
    obtain ⟨j, hj, rfl⟩ := List.mem_map.mp (List.mem_reverse.mp hy)
    refine ⟨j, hj, ?_⟩
    simp only [defaultTab, if_true, hfocus]
    rw [hord, hnext]
    rfl

theorem closeNav_inv (d0 d : MobilePage) (h : d.nav = d0.nav) : FocusInv d0 (closeNav d) := by
  constructor
  · simp [closeNav, focusOn_burger, h]
  · intro hopen
    simp [closeNav, focusOn_burger] at hopen

theorem openNav_inv (d0 d : MobilePage) (a : Anchor) (rest : List Anchor)
    (hnav0 : d0.nav = some (a :: rest)) (hhref : a.href.isSome = true) (h : d.nav = d0.nav) :
    FocusInv d0 (openNav d) := by
  have hn : d.nav = some (a :: rest) := h.trans hnav0
  have hopen : openNav d =
      { d with mobileActive := true,
               overlayDisplay := some "block",
               burgerIcon := closeIcon,
               ariaExpanded := some "true",
               focus := .navLink 0 } := by
    simp [openNav, MobilePage.anchors, hn, focusOn, focusable, hhref]
  rw [hopen]
  constructor
  · exact h
  · intro _
    refine ⟨0, ?_, rfl⟩
    simp [hrefLinks, MobilePage.anchors, hn, List.mem_filter, hhref]

theorem navStep_inv (d0 d : MobilePage) (e : NavEvent) (a : Anchor) (rest : List Anchor)
    (hnav0 : d0.nav = some (a :: rest)) (hhref : a.href.isSome = true)
    (hinv : FocusInv d0 d) : FocusInv d0 (navStep d e) := by
  obtain ⟨hnav, hfoc⟩ := hinv
  cases e with
  | burgerClick =>
    cases hm : d.mobileActive with
    | true => simpa [navStep, onBurgerClick, hm] using closeNav_inv d0 d hnav
    | false =>
      simpa [navStep, onBurgerClick, hm] using openNav_inv d0 d a rest hnav0 hhref hnav
  | overlayClick => exact closeNav_inv d0 d hnav
  | linkClick i =>
    by_cases hi : i < d.anchors.length
    · simpa [navStep, onLinkClick, hi] using closeNav_inv d0 d hnav
    · simpa [navStep, onLinkClick, hi] using (⟨hnav, hfoc⟩ : FocusInv d0 d)
  | keydown key shiftKey =>
    cases hm : d.mobileActive with
    | false =>
      have hr : onKeydown key shiftKey d = (d, false) := by simp [onKeydown, hm]
      constructor
      · simp only [navStep, hr]
        split <;> simp [hnav]
      · intro hopen
        simp only [navStep, hr] at hopen
        split at hopen <;> simp [hm] at hopen
    | true =>
      obtain ⟨i, hi, hfocus⟩ := hfoc hm
      by_cases hesc : key = "Escape"
      · have hne : ¬ (key = "Tab") := by rw [hesc]; decide
        have hr : navStep d (.keydown key shiftKey) = closeNav d := by
          simp [navStep, onKeydown, hm, hesc]
        rw [hr]
        exact closeNav_inv d0 d hnav
      · by_cases htab : key = "Tab"
        · subst htab
          obtain ⟨first, hf⟩ : ∃ first, (hrefLinks d.anchors).head? = some first := by
            cases hl : hrefLinks d.anchors with
            | nil => rw [hl] at hi; simp at hi
            | cons x xs => exact ⟨x, rfl⟩
          obtain ⟨last, hl⟩ : ∃ last, (hrefLinks d.anchors).getLast? = some last := by
            cases hl : (hrefLinks d.anchors).getLast? with
            | none => rw [List.getLast?_eq_none_iff] at hl; rw [hl] at hi; simp at hi
            | some x => exact ⟨x, rfl⟩
          have hfm : first ∈ hrefLinks d.anchors := List.mem_of_mem_head? hf
          have hlm : last ∈ hrefLinks d.anchors := List.mem_of_mem_getLast? hl
          have hff := mem_hrefLinks_focusable d first hfm
          have hlf := mem_hrefLinks_focusable d last hlm
          cases shiftKey with
          | true =>
            by_cases hedge : i = first
            · subst hedge
              have hr : navStep d (.keydown "Tab" true) = { d with focus := .navLink last } := by
                simp [navStep, onKeydown, hm, hesc, hf, hl, hfocus, focusOn, hlf]
              rw [hr]
              exact ⟨hnav, fun _ => ⟨last, hlm, rfl⟩⟩
            · have hne : ¬ (Elem.navLink i = Elem.navLink first) := by
                intro h; cases h; exact hedge rfl
              have hr : navStep d (.keydown "Tab" true)
                  = { d with focus := defaultTab d true } := by
                simp [navStep, onKeydown, hm, hesc, hf, hl, hfocus, hne]
              obtain ⟨j, hj, hdt⟩ := tab_default_stays_in_nav d i true hi hfocus
                (by simp only [if_true, hf]; intro h; cases h; exact hedge rfl)
              rw [hr]
              exact ⟨hnav, fun _ => ⟨j, hj, hdt⟩⟩
          | false =>
            by_cases hedge : i = last
            · subst hedge
              have hr : navStep d (.keydown "Tab" false) = { d with focus := .navLink first } := by
                simp [navStep, onKeydown, hm, hesc, hf, hl, hfocus, focusOn, hff]
              rw [hr]
              exact ⟨hnav, fun _ => ⟨first, hfm, rfl⟩⟩
            · have hne : ¬ (Elem.navLink i = Elem.navLink last) := by
                intro h; cases h; exact hedge rfl
              have hr : navStep d (.keydown "Tab" false)
                  = { d with focus := defaultTab d false } := by
                simp [navStep, onKeydown, hm, hesc, hf, hl, hfocus, hne]
              obtain ⟨j, hj, hdt⟩ := tab_default_stays_in_nav d i false hi hfocus
                (by simp only [Bool.false_eq_true, if_false, hl]; intro h; cases h; exact hedge rfl)
              rw [hr]
              exact ⟨hnav, fun _ => ⟨j, hj, hdt⟩⟩
        · have hr : navStep d (.keydown key shiftKey) = d := by
            simp [navStep, onKeydown, hm, hesc, htab]
          rw [hr]
          exact ⟨hnav, fun _ => ⟨i, hi, hfocus⟩⟩

theorem reachable_inv (d0 d : MobilePage) (a : Anchor) (rest : List Anchor)
    (hnav0 : d0.nav = some (a :: rest)) (hhref : a.href.isSome = true)
    (hclosed : d0.mobileActive = false) (hreach : NavReachable d0 d) : FocusInv d0 d := by
  induction hreach with
  | init =>
    constructor
    · simp [initMobileNav, hnav0]
    · intro h
      simp [initMobileNav, hnav0, hclosed] at h
  | step d1 e _ ih => exact navStep_inv d0 d1 e a rest hnav0 hhref ih

/-- C7 (as stated, refuted): on a page whose nav holds no `a` element, a click
on the burger opens the overlay with the focus left outside the nav, and the
next Tab key press is not intercepted and puts the focus on the theme toggle
while the overlay is still Open.  The same happens on a page whose nav starts
with an `a` without `href`: the overlay opens with the focus outside the nav,
and the next Tab key press puts it on an element before the nav. -/
theorem focus_containment_counterexample :
    (NavReachable pageNavWithoutLinks
      (navStep (navStep (initMobileNav pageNavWithoutLinks) .burgerClick) (.keydown "Tab" false))
    ∧ (navStep (initMobileNav pageNavWithoutLinks) .burgerClick).mobileActive = true
    ∧ focusInNav (navStep (initMobileNav pageNavWithoutLinks) .burgerClick) = false
    ∧ (navStep (navStep (initMobileNav pageNavWithoutLinks) .burgerClick)
        (.keydown "Tab" false)).mobileActive = true
    ∧ (navStep (navStep (initMobileNav pageNavWithoutLinks) .burgerClick)
        (.keydown "Tab" false)).focus = .themeToggle)
    ∧ (NavReachable pageBrandAnchor
      (navStep (navStep (initMobileNav pageBrandAnchor) .burgerClick) (.keydown "Tab" false))
    ∧ (navStep (initMobileNav pageBrandAnchor) .burgerClick).mobileActive = true
    ∧ focusInNav (navStep (initMobileNav pageBrandAnchor) .burgerClick) = false
    ∧ (navStep (navStep (initMobileNav pageBrandAnchor) .burgerClick)
        (.keydown "Tab" false)).mobileActive = true
    ∧ (navStep (navStep (initMobileNav pageBrandAnchor) .burgerClick)
        (.keydown "Tab" false)).focus = .other 0) :=
  ⟨⟨NavReachable.step _ _ (NavReachable.step _ _ NavReachable.init),
    by decide, by decide, by decide, by decide⟩,
   ⟨NavReachable.step _ _ (NavReachable.step _ _ NavReachable.init),
    by decide, by decide, by decide, by decide⟩⟩

/-- C7 (amended): on a page whose nav has a first `a` element with an `href`,
in every state reachable from the Closed initial state by burger clicks,
overlay clicks, link clicks and keydown events (a Tab press that the listener
does not intercept being followed by the default move of the browser), while
the nav carries `mobile-active` the focus is on an `a[href]` link of the nav. -/
theorem focus_contained (d0 d : MobilePage) (a : Anchor) (rest : List Anchor)
    (hnav0 : d0.nav = some (a :: rest)) (hhref : a.href.isSome = true)
    (hclosed : d0.mobileActive = false)
    (hreach : NavReachable d0 d) (hopen : d.mobileActive = true) :
    focusInNav d = true ∧ ∃ i ∈ hrefLinks d.anchors, d.focus = .navLink i := by
  have hinv := reachable_inv d0 d a rest hnav0 hhref hclosed hreach
  obtain ⟨i, hi, hfocus⟩ := hinv.2 hopen
  refine ⟨?_, i, hi, hfocus⟩
  have hlt : i < d.anchors.length := by
    simp only [hrefLinks, List.mem_filter, List.mem_range] at hi
    exact hi.1
  simp [focusInNav, hfocus, hlt]

/-- Witness of `focus_contained`: on a page with two links, after opening the
overlay and pressing Tab twice the focus has wrapped to the first link. -/
theorem focus_contained_witness :
    focusInNav (navStep (navStep (navStep (initMobileNav pageTwoLinks) .burgerClick)
        (.keydown "Tab" false)) (.keydown "Tab" false)) = true
    ∧ ∃ i ∈ hrefLinks (navStep (navStep (navStep (initMobileNav pageTwoLinks) .burgerClick)
        (.keydown "Tab" false)) (.keydown "Tab" false)).anchors,
      (navStep (navStep (navStep (initMobileNav pageTwoLinks) .burgerClick)
        (.keydown "Tab" false)) (.keydown "Tab" false)).focus = .navLink i :=
  focus_contained pageTwoLinks _ { href := some "#about", active := false }
    [{ href := some "#work", active := false }] rfl rfl rfl
    (NavReachable.step _ _ (NavReachable.step _ _ (NavReachable.step _ _ NavReachable.init)))
    (by decide)

/-! ## Theorems: scroll spy -/

theorem filter_range_eq_singleton (p : Nat → Bool) (n L : Nat) (hL : L < n)
    (hp : ∀ i, i < n → (p i = true ↔ i = L)) : (List.range n).filter p = [L] := by
  induction n with
  | zero => omega
  | succ n ih =>
    rw [List.range_succ, List.filter_append]
    by_cases hLn : L = n
    · subst hLn
      have h1 : (List.range L).filter p = [] := by
        rw [List.filter_eq_nil_iff]
        intro a ha
        have hlt : a < L := List.mem_range.mp ha
        intro hpa
        have := (hp a (by omega)).mp hpa
        omega
      have h2 : p L = true := (hp L (by omega)).mpr rfl
      simp [h1, h2]
    · have hlt : L < n := by omega
      have h1 := ih hlt (fun i hi => hp i (by omega))
      have h2 : p n = false := by
        cases hpn : p n with
        | false => rfl
        | true => exact absurd ((hp n (by omega)).mp hpn) (fun h => hLn h.symm)
      simp [h1, h2]

theorem isHashLink_active (a : Anchor) (b : Bool) :
    isHashLink { a with active := b } = isHashLink a := rfl

theorem activeLinks_after_mark (l : List Anchor) (L : Nat) (a : Anchor)
    (hL : l[L]? = some a) (hhash : isHashLink a = true) :
    activeLinks (addActive L (clearActive l)) = [L] := by
  have hlen : L < l.length := by
    rcases Nat.lt_or_ge L l.length with h | h
    · exact h
    · rw [List.getElem?_eq_none h] at hL
      cases hL
  have hc : (clearActive l)[L]? = some { a with active := false } := by
    simp [clearActive, hL, hhash]
  have hadd : addActive L (clearActive l)
      = (clearActive l).set L { a with active := true } := by
    simp [addActive, hc]
  rw [hadd]
  unfold activeLinks
  have hlen2 : ((clearActive l).set L { a with active := true }).length = l.length := by
    simp [clearActive]
  rw [hlen2]
  apply filter_range_eq_singleton _ _ _ hlen
  intro i hi
  by_cases hiL : i = L
  · subst hiL
    simp [List.getElem?_set, clearActive, hi, isHashLink_active, hhash]
  · have hne : ¬ (L = i) := fun h => hiL h.symm
    simp only [List.getElem?_set, hne, if_false]
    have hget : (clearActive l)[i]? = some
        (if isHashLink l[i] then { l[i] with active := false } else l[i]) := by
      simp [clearActive, List.getElem?_eq_getElem hi]
    rw [hget]
    by_cases hh : isHashLink l[i] = true
    · simp [hh, isHashLink_active, hiL]
    · simp [hh, hiL]

theorem collectSections_mem (ids : List String) (l : List Anchor) (k i : Nat) (t : String)
    (h : (i, t) ∈ (collectSections ids k l).1) :
    k ≤ i ∧ ∃ a, l[i - k]? = some a ∧ hashTarget a = some t := by
  induction l generalizing k with
  | nil => simp [collectSections] at h
  | cons a rest ih =>
    have hrest : (i, t) ∈ (collectSections ids (k + 1) rest).1 →
        k ≤ i ∧ ∃ b, (a :: rest)[i - k]? = some b ∧ hashTarget b = some t := by
      intro h1
      obtain ⟨hk, b, hb, ht⟩ := ih (k + 1) h1
      refine ⟨by omega, b, ?_, ht⟩
      have : i - k = (i - (k + 1)) + 1 := by omega
      rw [this]
      simpa using hb
    unfold collectSections at h
    cases hta : hashTarget a with
    | none =>
      simp only [hta] at h
      exact hrest h
    | some targetId =>
      simp only [hta] at h
      by_cases hempty : targetId = ""
      · simp only [hempty, if_true] at h
        exact hrest h
      · simp only [hempty, if_false] at h
        by_cases hid : ids.contains targetId = true
        · simp only [hid, if_true, List.mem_cons] at h
          rcases h with h | h
          · cases h
            exact ⟨Nat.le_refl _, a, by simp, hta⟩
          · exact hrest h
        · simp only [hid] at h
          exact hrest h

theorem observed_fold_mem (l : List (Nat × String)) (acc : List String) (t : String)
    (h : t ∈ l.foldl (fun acc s => if acc.contains s.2 then acc else acc ++ [s.2]) acc) :
    t ∈ acc ∨ ∃ s ∈ l, s.2 = t := by
  induction l generalizing acc with
  | nil => exact Or.inl h
  | cons s rest ih =>
    simp only [List.foldl_cons] at h
    rcases ih _ h with h1 | ⟨s1, hs1, ht⟩
    · by_cases hc : acc.contains s.2 = true
      · simp only [hc, if_true] at h1
        exact Or.inl h1
      · simp only [hc] at h1
        rcases List.mem_append.mp h1 with h2 | h2
        · exact Or.inl h2
        · have h3 : t = s.2 := by simpa using h2
          exact Or.inr ⟨s, by simp, h3.symm⟩
    · exact Or.inr ⟨s1, by simp [hs1], ht⟩

theorem clearActive_href (l : List Anchor) :
    (clearActive l).map (fun a => a.href) = l.map (fun a => a.href) := by
  simp only [clearActive, List.map_map]
  apply List.map_congr_left
  intro a _
  simp only [Function.comp]
  split <;> rfl

theorem addActive_href (L : Nat) (l : List Anchor) :
    (addActive L l).map (fun a => a.href) = l.map (fun a => a.href) := by
  unfold addActive
  cases h : l[L]? with
  | none => rfl
  | some a =>
    apply List.ext_getElem?
    intro i
    simp only [List.getElem?_map, List.getElem?_set]
    by_cases hi : L = i
    · subst hi
      have hlt : L < l.length := by
        rcases Nat.lt_or_ge L l.length with h1 | h1
        · exact h1
        · rw [List.getElem?_eq_none h1] at h
          cases h
      simp [hlt, h]
    · simp [hi]

theorem onSpyEntry_inv (anchors : List Anchor) (s0 s : SpyPage) (e : SpyEntry)
    (h : SpyInv anchors s0 s) : SpyInv anchors s0 (onSpyEntry s e) := by
  obtain ⟨hs, l, hl, hhref⟩ := h
  unfold onSpyEntry
  split
  · split
    · rename_i m _
      refine ⟨hs, addActive m.1 (clearActive l), by simp [hl], ?_⟩
      rw [addActive_href, clearActive_href, hhref]
    · exact ⟨hs, l, hl, hhref⟩
  · exact ⟨hs, l, hl, hhref⟩

theorem spyCallback_inv (anchors : List Anchor) (s0 s : SpyPage) (es : List SpyEntry)
    (h : SpyInv anchors s0 s) : SpyInv anchors s0 (spyCallback s es) := by
  induction es generalizing s with
  | nil => exact h
  | cons e rest ih => exact ih _ (onSpyEntry_inv anchors s0 s e h)

theorem hashTarget_of_href (a b : Anchor) (h : a.href = b.href) :
    hashTarget a = hashTarget b := by
  unfold hashTarget
  rw [h]

theorem scroll_spy_entries (d : SpyPage) (anchors : List Anchor) (es : List SpyEntry)
    (t : String) (hnav : d.nav = some anchors)
    (hobs : ∀ e ∈ es, e.target ∈ (initNavScrollSpy d).observed)
    (hlast : lastIntersecting es = some t) :
    ∃ L, (initNavScrollSpy d).sections.find? (fun s => s.2 == t) = some (L, t)
      ∧ activeLinks (spyCallback (initNavScrollSpy d) es).anchors = [L] := by
  induction es using List.reverseRecOn generalizing t with
  | nil => simp [lastIntersecting] at hlast
  | append_singleton es e ih =>
    have hobs1 : ∀ x ∈ es, x.target ∈ (initNavScrollSpy d).observed :=
      fun x hx => hobs x (by simp [hx])
    have hrun : spyCallback (initNavScrollSpy d) (es ++ [e])
        = onSpyEntry (spyCallback (initNavScrollSpy d) es) e := by
      simp [spyCallback, List.foldl_append]
    rw [hrun]
    cases hint : e.isIntersecting with
    | false =>
      have hl : lastIntersecting es = some t := by
        simpa [lastIntersecting, List.filter_append, hint] using hlast
      obtain ⟨L, hfind, hact⟩ := ih t hobs1 hl
      exact ⟨L, hfind, by simpa [onSpyEntry, hint] using hact⟩
    | true =>
      have ht : e.target = t := by
        simpa [lastIntersecting, List.filter_append, hint] using hlast
      subst ht
      have hinit : (initNavScrollSpy d).sections = (collectSections d.ids 0 anchors).1 := by
        simp [initNavScrollSpy, hnav]
      have hinv0 : SpyInv anchors (initNavScrollSpy d) (initNavScrollSpy d) :=
        ⟨rfl, anchors, by simp [initNavScrollSpy, hnav], rfl⟩
      obtain ⟨hsec, l, hl, hhref⟩ := spyCallback_inv anchors _ _ es hinv0
      -- the target is observed, so it is the section of some pair
      have hmem := hobs e (by simp)
      have hobsdef : (initNavScrollSpy d).observed = (collectSections d.ids 0 anchors).1.foldl
          (fun acc s => if acc.contains s.2 then acc else acc ++ [s.2]) [] := by
        simp [initNavScrollSpy, hnav]
      rw [hobsdef] at hmem
      rcases observed_fold_mem _ _ _ hmem with h | ⟨s, hs, hst⟩
      · simp at h
      · have hsome : ((initNavScrollSpy d).sections.find? (fun s => s.2 == e.target)).isSome := by
          rw [List.find?_isSome]
          exact ⟨s, by rw [hinit]; exact hs, by simp [hst]⟩
        obtain ⟨m, hm⟩ := Option.isSome_iff_exists.mp hsome
        have hm2 : m.2 = e.target := by simpa using List.find?_some hm
        have hmmem : m ∈ (collectSections d.ids 0 anchors).1 := by
          rw [← hinit]
          exact List.mem_of_find?_eq_some hm
        obtain ⟨_, a, ha, hta⟩ := collectSections_mem d.ids anchors 0 m.1 m.2 hmmem
        have hmeq : m = (m.1, e.target) := by rw [← hm2]
        refine ⟨m.1, by rw [hm, ← hmeq], ?_⟩
        -- the link of the pair is still a hash link of the current nav
        have hlt : m.1 < anchors.length := by
          rcases Nat.lt_or_ge m.1 anchors.length with h1 | h1
          · exact h1
          · rw [Nat.sub_zero, List.getElem?_eq_none h1] at ha
            cases ha
        have hlen : l.length = anchors.length := by
          have := congrArg List.length hhref
          simpa using this
        have hlt2 : m.1 < l.length := by omega
        have hhrefL : (l[m.1]).href = a.href := by
          have h1 := congrArg (fun x => x[m.1]?) hhref
          simp only [List.getElem?_map] at h1
          rw [List.getElem?_eq_getElem hlt2] at h1
          rw [Nat.sub_zero] at ha
          rw [ha] at h1
          simpa using h1
        have hhash : isHashLink l[m.1] = true := by
          unfold isHashLink
          rw [hashTarget_of_href _ a hhrefL, hta]
          rfl
        have hstep : (onSpyEntry (spyCallback (initNavScrollSpy d) es) e).anchors
            = addActive m.1 (clearActive l) := by
          simp [onSpyEntry, hint, hsec, hm, SpyPage.anchors, hl]
        rw [hstep]
        exact activeLinks_after_mark l m.1 l[m.1] (List.getElem?_eq_getElem hlt2) hhash

theorem onSpyEntry_frame (anchors : List Anchor) (s : SpyPage) (e : SpyEntry)
    (h : SpyFrame anchors s) : SpyFrame anchors (onSpyEntry s e) := by
  obtain ⟨hsec, l, hl, hfr⟩ := h
  unfold onSpyEntry
  split
  · split
    · rename_i m hm
      refine ⟨hsec, addActive m.1 (clearActive l), by simp [hl], ?_⟩
      intro i a hia hnh
      obtain ⟨b, hb, hbh⟩ := hsec m (List.mem_of_find?_eq_some hm)
      have hne : ¬ (m.1 = i) := by
        intro hmi
        rw [hmi, hia] at hb
        cases hb
        rw [hnh] at hbh
        cases hbh
      have hclear : (clearActive l)[i]? = some a := by
        simp [clearActive, hfr i a hia hnh, hnh]
      unfold addActive
      split
      · rw [List.getElem?_set]
        simp [hne, hclear]
      · exact hclear
    · exact ⟨hsec, l, hl, hfr⟩
  · exact ⟨hsec, l, hl, hfr⟩

theorem spyCallback_frame (anchors : List Anchor) (s : SpyPage) (es : List SpyEntry)
    (h : SpyFrame anchors s) : SpyFrame anchors (spyCallback s es) := by
  induction es generalizing s with
  | nil => exact h
  | cons e rest ih => exact ih _ (onSpyEntry_frame anchors s e h)

theorem scroll_spy_frame (d : SpyPage) (anchors : List Anchor) (es : List SpyEntry)
    (hnav : d.nav = some anchors) (i : Nat) (a : Anchor) (hia : anchors[i]? = some a)
    (hnh : isHashLink a = false) :
    (spyCallback (initNavScrollSpy d) es).anchors[i]? = some a := by
  have h0 : SpyFrame anchors (initNavScrollSpy d) := by
    constructor
    · intro m hm
      have hinit : (initNavScrollSpy d).sections = (collectSections d.ids 0 anchors).1 := by
        simp [initNavScrollSpy, hnav]
      rw [hinit] at hm
      obtain ⟨_, b, hb, htb⟩ := collectSections_mem d.ids anchors 0 m.1 m.2 hm
      rw [Nat.sub_zero] at hb
      exact ⟨b, hb, by simp [isHashLink, htb]⟩
    · exact ⟨anchors, by simp [initNavScrollSpy, hnav], fun _ _ h _ => h⟩
  obtain ⟨_, l, hl, hfr⟩ := spyCallback_frame anchors _ es h0
  simp only [SpyPage.anchors, hl, Option.getD_some]
  exact hfr i a hia hnh

theorem scroll_spy_links (d : SpyPage) (anchors : List Anchor)
    (batches : List (List SpyEntry)) (t : String) (hnav : d.nav = some anchors)
    (hobs : ∀ e ∈ batches.flatten, e.target ∈ (initNavScrollSpy d).observed)
    (hlast : lastIntersecting batches.flatten = some t) :
    (∃ L, (initNavScrollSpy d).sections.find? (fun s => s.2 == t) = some (L, t)
      ∧ activeLinks (spyRun (initNavScrollSpy d) batches).anchors = [L])
    ∧ ∀ (i : Nat) (a : Anchor), anchors[i]? = some a → isHashLink a = false →
        (spyRun (initNavScrollSpy d) batches).anchors[i]? = some a := by
  have hrun : spyRun (initNavScrollSpy d) batches
      = spyCallback (initNavScrollSpy d) batches.flatten := by
    unfold spyRun spyCallback
    rw [List.foldl_flatten]
  rw [hrun]
  exact ⟨scroll_spy_entries d anchors batches.flatten t hnav hobs hlast,
    fun i a hia hnh => scroll_spy_frame d anchors batches.flatten hnav i a hia hnh⟩

theorem activeAnchors_eq_activeLinks (l : List Anchor)
    (h : ∀ (i : Nat) (a : Anchor), l[i]? = some a → isHashLink a = false → a.active = false) :
    activeAnchors l = activeLinks l := by
  unfold activeAnchors activeLinks
  apply List.filter_congr
  intro i _
  cases hget : l[i]? with
  | none => rfl
  | some a =>
    cases hh : isHashLink a with
    | true => simp [hh]
    | false => simp [h i a hget hh]

theorem spyRun_hrefs (d : SpyPage) (anchors : List Anchor) (batches : List (List SpyEntry))
    (hnav : d.nav = some anchors) :
    (spyRun (initNavScrollSpy d) batches).anchors.map (fun a => a.href)
      = anchors.map (fun a => a.href) := by
  have hrun : spyRun (initNavScrollSpy d) batches
      = spyCallback (initNavScrollSpy d) batches.flatten := by
    unfold spyRun spyCallback
    rw [List.foldl_flatten]
  have hinv0 : SpyInv anchors (initNavScrollSpy d) (initNavScrollSpy d) :=
    ⟨rfl, anchors, by simp [initNavScrollSpy, hnav], rfl⟩
  obtain ⟨_, l, hl, hhref⟩ := spyCallback_inv anchors _ _ batches.flatten hinv0
  rw [hrun]
  simp only [SpyPage.anchors, hl, Option.getD_some]
  exact hhref

theorem mark_of_all (anchors : List Anchor)
    (h : anchors.all (fun a => isHashLink a || !a.active) = true) :
    ∀ (i : Nat) (a : Anchor), anchors[i]? = some a → isHashLink a = false →
      a.active = false := by
  intro i a hia hnh
  have hmem : a ∈ anchors := List.getElem?_mem hia
  have ha := List.all_eq_true.mp h a hmem
  simpa [hnh] using ha

/-- C8 (as stated, refuted): on a nav whose first link leads to another page
and carries `active` in the markup, after the section `about` has been seen
intersecting two links of the nav carry `active`: the link to the other page,
which the callback never clears, and the link paired with `about`. -/
theorem scroll_spy_counterexample :
    (∀ e ∈ spyBatchAbout.flatten, e.target ∈ (initNavScrollSpy spyPageBlog).observed)
    ∧ lastIntersecting spyBatchAbout.flatten = some "about"
    ∧ (initNavScrollSpy spyPageBlog).sections.find? (fun s => s.2 == "about")
        = some (1, "about")
    ∧ activeAnchors (spyRun (initNavScrollSpy spyPageBlog) spyBatchAbout).anchors = [0, 1]
    ∧ (activeAnchors (spyRun (initNavScrollSpy spyPageBlog) spyBatchAbout).anchors).length
        ≠ 1 := by
  decide

/-- C8 (amended): on a nav in which no anchor outside the selector
`a[href^="#"]` carries `active` in the markup, for every sequence of batches
of entries for observed sections, once an intersecting entry has been
processed, exactly one anchor of the nav carries `active`: the link paired in
`sections` with the target of the last intersecting entry processed (the
first such pair in push order). -/
theorem scroll_spy_single_active (d : SpyPage) (anchors : List Anchor)
    (batches : List (List SpyEntry)) (t : String) (hnav : d.nav = some anchors)
    (hmark : ∀ (i : Nat) (a : Anchor), anchors[i]? = some a → isHashLink a = false →
      a.active = false)
    (hobs : ∀ e ∈ batches.flatten, e.target ∈ (initNavScrollSpy d).observed)
    (hlast : lastIntersecting batches.flatten = some t) :
    ∃ L, (initNavScrollSpy d).sections.find? (fun s => s.2 == t) = some (L, t)
      ∧ activeAnchors (spyRun (initNavScrollSpy d) batches).anchors = [L] := by
  obtain ⟨⟨L, hfind, hact⟩, hframe⟩ := scroll_spy_links d anchors batches t hnav hobs hlast
  refine ⟨L, hfind, ?_⟩
  rw [← hact]
  apply activeAnchors_eq_activeLinks
  intro i b hb hbh
  have hhref := spyRun_hrefs d anchors batches hnav
  have hlen : (spyRun (initNavScrollSpy d) batches).anchors.length = anchors.length := by
    have := congrArg List.length hhref
    simpa using this
  have hlt : i < (spyRun (initNavScrollSpy d) batches).anchors.length := by
    rcases Nat.lt_or_ge i (spyRun (initNavScrollSpy d) batches).anchors.length with h1 | h1
    · exact h1
    · rw [List.getElem?_eq_none h1] at hb
      cases hb
  have hlt2 : i < anchors.length := by omega
  have hia : anchors[i]? = some anchors[i] := List.getElem?_eq_getElem hlt2
  have hsame : b.href = (anchors[i]).href := by
    have h1 := congrArg (fun x => x[i]?) hhref
    simp only [List.getElem?_map, hb, hia, Option.map_some'] at h1
    simpa using h1
  have hnh : isHashLink anchors[i] = false := by
    unfold isHashLink
    rw [← hashTarget_of_href b anchors[i] hsame]
    exact hbh
  have hkeep := hframe i anchors[i] hia hnh
  rw [hb] at hkeep
  cases hkeep
  exact hmark i anchors[i] hia hnh

/-- Witness of `scroll_spy_single_active`: three links to sections, `work` is
the last section seen intersecting, and the link of index 1 is the only
anchor left active. -/
theorem scroll_spy_single_active_witness :
    activeAnchors (spyRun (initNavScrollSpy spyPageThree) spyBatches).anchors = [1]
    ∧ ∃ L, (initNavScrollSpy spyPageThree).sections.find? (fun s => s.2 == "work")
        = some (L, "work")
      ∧ activeAnchors (spyRun (initNavScrollSpy spyPageThree) spyBatches).anchors = [L] :=
  ⟨by decide, scroll_spy_single_active spyPageThree _ spyBatches "work" rfl
    (mark_of_all _ (by decide)) (by decide) (by decide)⟩

/-! ## Theorems: entrance animation -/

theorem onCardEntry_get (s : CardsPage) (e : CardEntry) (i : Nat) :
    (onCardEntry s e).cards[i]?
      = if (e.isIntersecting && e.target == i) = true then (s.cards[i]?).map reveal
        else s.cards[i]? := by
  unfold onCardEntry
  cases hint : e.isIntersecting with
  | false => simp
  | true =>
    simp only [if_true, Bool.true_and, beq_iff_eq]
    by_cases hti : e.target = i
    · subst hti
      cases hget : s.cards[e.target]? with
      | none => simp [hget]
      | some c =>
        have hlt : e.target < s.cards.length := by
          rcases Nat.lt_or_ge e.target s.cards.length with h1 | h1
          · exact h1
          · rw [List.getElem?_eq_none h1] at hget
            cases hget
        simp [List.getElem?_set, hlt, reveal]
    · cases hget : s.cards[e.target]? with
      | none => simp [hti]
      | some c => simp [List.getElem?_set, hti]

theorem reveal_reveal (o : Option Card) : (o.map reveal).map reveal = o.map reveal := by
  cases o <;> rfl

theorem cardsCallback_get (s : CardsPage) (es : List CardEntry) (i : Nat) :
    (cardsCallback s es).cards[i]?
      = if hits i es = true then (s.cards[i]?).map reveal else s.cards[i]? := by
  induction es generalizing s with
  | nil => simp [cardsCallback, hits]
  | cons e rest ih =>
    have hstep : cardsCallback s (e :: rest) = cardsCallback (onCardEntry s e) rest := rfl
    rw [hstep, ih, onCardEntry_get]
    by_cases he : (e.isIntersecting && e.target == i) = true
    · have hh : hits i (e :: rest) = true := by simp [hits, he]
      simp only [he, hh, if_true, reveal_reveal]
      split <;> rfl
    · have hh : hits i (e :: rest) = hits i rest := by
        simp only [Bool.not_eq_true] at he
        simp [hits, he]
      simp [he, hh]

theorem revealCount_eq (s : CardsPage) (es : List CardEntry) (i : Nat) (c : Card)
    (hc : s.cards[i]? = some c) :
    revealCount i s es = if (hits i es && c.fadeHidden) = true then 1 else 0 := by
  induction es generalizing s c with
  | nil => simp [revealCount, hits]
  | cons e rest ih =>
    unfold revealCount
    simp only []
    by_cases he : (e.isIntersecting && e.target == i) = true
    · have hh : hits i (e :: rest) = true := by simp [hits, he]
      have hget : (onCardEntry s e).cards[i]? = some (reveal c) := by
        rw [onCardEntry_get, if_pos he, hc]
        rfl
      rw [ih _ _ hget, hc, hget, hh]
      rcases c with ⟨cid, fh, vis⟩
      cases fh <;> simp [reveal]
    · have hh : hits i (e :: rest) = hits i rest := by
        simp only [Bool.not_eq_true] at he
        simp [hits, he]
      have hget : (onCardEntry s e).cards[i]? = some c := by
        rw [onCardEntry_get, if_neg he, hc]
      rw [ih _ _ hget, hc, hget, hh]
      rcases c with ⟨cid, fh, vis⟩
      cases fh <;> simp

theorem cardsCallback_observed_sub (s : CardsPage) (es : List CardEntry) (i : Nat)
    (h : i ∈ (cardsCallback s es).observed) : i ∈ s.observed := by
  induction es generalizing s with
  | nil => exact h
  | cons e rest ih =>
    have h1 : i ∈ (onCardEntry s e).observed := ih _ h
    unfold onCardEntry at h1
    split at h1
    · exact (List.mem_filter.mp h1).1
    · exact h1

theorem cardsCallback_unobserved (s : CardsPage) (es : List CardEntry) (i : Nat)
    (hh : hits i es = true) : i ∉ (cardsCallback s es).observed := by
  induction es generalizing s with
  | nil => simp [hits] at hh
  | cons e rest ih =>
    by_cases he : (e.isIntersecting && e.target == i) = true
    · intro hmem
      have h1 : i ∈ (onCardEntry s e).observed := cardsCallback_observed_sub _ rest i hmem
      simp only [Bool.and_eq_true, beq_iff_eq] at he
      simp [onCardEntry, he.1, he.2] at h1
    · have hh2 : hits i rest = true := by
        simp only [Bool.not_eq_true] at he
        simpa [hits, he] using hh
      exact ih _ hh2

theorem init_cards_get (d : CardsPage) (i : Nat) (c : Card) (hc : d.cards[i]? = some c) :
    (initSectionAnimations d).cards[i]?
      = some (if eligible c = true then { c with fadeHidden := true } else c)
    ∧ (eligible c = true → i ∈ (initSectionAnimations d).observed) := by
  have hlt : i < d.cards.length := by
    rcases Nat.lt_or_ge i d.cards.length with h1 | h1
    · exact h1
    · rw [List.getElem?_eq_none h1] at hc
      cases hc
  have hmem : eligible c = true → i ∈ (List.range d.cards.length).filter
      (fun i => match d.cards[i]? with
        | some c => eligible c
        | none => false) := by
    intro he
    simp [List.mem_filter, hlt, hc, he]
  unfold initSectionAnimations
  simp only []
  split
  · rename_i hempty
    have hno : ¬ (eligible c = true) := by
      intro he
      have := hmem he
      rw [List.isEmpty_iff.mp hempty] at this
      simp at this
    simp [hc, hno]
  · refine ⟨?_, hmem⟩
    simp only [List.getElem?_map, hc, Option.map_some']

/-- C9: for every list of section cards, every sequence of entries and every
card: an eligible card carries `fade-hidden` and is observed after startup;
over the whole sequence it goes from `fade-hidden` to `visible` exactly once
when some intersecting entry names it and never otherwise; after any sequence
it carries `fade-hidden` exactly when no intersecting entry has named it yet,
and once one has, it carries `visible` and is no longer observed.  A card
whose id is `about` or `experience` carries `fade-hidden` only if the markup
already gave it that class. -/
theorem entrance_one_shot (d : CardsPage) (es : List CardEntry) (i : Nat) (c : Card)
    (hc : d.cards[i]? = some c) :
    (eligible c = true →
      (initSectionAnimations d).cards[i]? = some { c with fadeHidden := true }
      ∧ i ∈ (initSectionAnimations d).observed
      ∧ revealCount i (initSectionAnimations d) es = (if hits i es = true then 1 else 0)
      ∧ (cardsCallback (initSectionAnimations d) es).cards[i]?
          = some (if hits i es = true then { c with fadeHidden := false, visible := true }
                  else { c with fadeHidden := true })
      ∧ (hits i es = true → i ∉ (cardsCallback (initSectionAnimations d) es).observed))
    ∧ (eligible c = false →
      ∃ c1, (cardsCallback (initSectionAnimations d) es).cards[i]? = some c1
        ∧ (c1.fadeHidden = true → c.fadeHidden = true)) := by
  obtain ⟨hget, hobs⟩ := init_cards_get d i c hc
  constructor
  · intro he
    rw [if_pos he] at hget
    refine ⟨hget, hobs he, ?_, ?_, cardsCallback_unobserved _ es i⟩
    · rw [revealCount_eq _ es i _ hget]
      simp
    · rw [cardsCallback_get, hget]
      split <;> rfl
  · intro he
    have hne : ¬ (eligible c = true) := by simp [he]
    rw [if_neg hne] at hget
    rw [cardsCallback_get, hget]
    by_cases hh : hits i es = true
    · exact ⟨reveal c, by simp [hh], by simp [reveal]⟩
    · exact ⟨c, by simp [hh], fun h => h⟩

/-- Witness of `entrance_one_shot`: the card `projects` enters, leaves and
enters again; it is revealed once and ends visible and unobserved. -/
theorem entrance_one_shot_witness :
    (initSectionAnimations cardsPageFour).cards[1]?
        = some { id := "projects", fadeHidden := true, visible := false }
    ∧ revealCount 1 (initSectionAnimations cardsPageFour) cardEntriesInOut = 1
    ∧ (cardsCallback (initSectionAnimations cardsPageFour) cardEntriesInOut).cards[1]?
        = some { id := "projects", fadeHidden := false, visible := true }
    ∧ 1 ∉ (cardsCallback (initSectionAnimations cardsPageFour) cardEntriesInOut).observed := by
  have h := (entrance_one_shot cardsPageFour cardEntriesInOut 1
    { id := "projects", fadeHidden := false, visible := false } (by decide)).1 (by decide)
  exact ⟨h.1, by decide, by decide, h.2.2.2.2 (by decide)⟩

/-! ## Theorems: particles -/

theorem roundDouble_cases (x : Nat) (hb : 52 < Nat.log2 x) :
    roundDouble x = x / 2 ^ (Nat.log2 x - 52) * 2 ^ (Nat.log2 x - 52)
    ∨ (roundDouble x = (x / 2 ^ (Nat.log2 x - 52) + 1) * 2 ^ (Nat.log2 x - 52)
        ∧ 2 ^ (Nat.log2 x - 52) ≤ 2 * (x % 2 ^ (Nat.log2 x - 52))) := by
  have hnb : ¬ (Nat.log2 x ≤ 52) := by omega
  obtain ⟨k, hk⟩ : ∃ k, Nat.log2 x - 52 = k + 1 := ⟨Nat.log2 x - 53, by omega⟩
  have hhalf : 2 ^ (Nat.log2 x - 52) / 2 = 2 ^ k := by
    rw [hk, Nat.pow_succ, Nat.mul_div_cancel _ (by decide : 0 < 2)]
  have hunit : 2 ^ (Nat.log2 x - 52) = 2 * 2 ^ k := by
    rw [hk, Nat.pow_succ, Nat.mul_comm]
  unfold roundDouble
  simp only [hnb, if_false, hhalf]
  split
  · exact Or.inl rfl
  · split
    · right; refine ⟨rfl, ?_⟩; rw [hunit] at *; omega
    · split
      · exact Or.inl rfl
      · right; refine ⟨rfl, ?_⟩; rw [hunit] at *; omega

theorem roundDouble_small (x : Nat) (hb : Nat.log2 x ≤ 52) : roundDouble x = x := by
  simp [roundDouble, hb]

theorem roundDouble_le (x Y : Nat) (hxy : x ≤ Y) (hdvd : 2 ^ (Nat.log2 x - 52) ∣ Y) :
    roundDouble x ≤ Y := by
  by_cases hb : Nat.log2 x ≤ 52
  · rw [roundDouble_small x hb]; exact hxy
  · have hpos : 0 < 2 ^ (Nat.log2 x - 52) := Nat.two_pow_pos _
    have hdm := Nat.div_add_mod x (2 ^ (Nat.log2 x - 52))
    obtain ⟨k, rfl⟩ := hdvd
    rcases roundDouble_cases x (by omega) with h | ⟨h, hr⟩
    · rw [h]
      calc x / 2 ^ (Nat.log2 x - 52) * 2 ^ (Nat.log2 x - 52) ≤ x := Nat.div_mul_le_self _ _
        _ ≤ _ := hxy
    · rw [h, Nat.mul_comm]
      apply Nat.mul_le_mul_left
      have hrpos : 0 < x % 2 ^ (Nat.log2 x - 52) := by omega
      have hlt : 2 ^ (Nat.log2 x - 52) * (x / 2 ^ (Nat.log2 x - 52)) < 2 ^ (Nat.log2 x - 52) * k := by
        omega
      exact Nat.succ_le_of_lt (Nat.lt_of_mul_lt_mul_left hlt)

theorem le_roundDouble (x y : Nat) (hyx : y ≤ x) (hdvd : 2 ^ (Nat.log2 x - 52) ∣ y) :
    y ≤ roundDouble x := by
  by_cases hb : Nat.log2 x ≤ 52
  · rw [roundDouble_small x hb]; exact hyx
  · have hpos : 0 < 2 ^ (Nat.log2 x - 52) := Nat.two_pow_pos _
    have hdm := Nat.div_add_mod x (2 ^ (Nat.log2 x - 52))
    have hmod := Nat.mod_lt x hpos
    obtain ⟨k, rfl⟩ := hdvd
    have hk : k ≤ x / 2 ^ (Nat.log2 x - 52) := by
      rw [Nat.le_div_iff_mul_le hpos, Nat.mul_comm]
      exact hyx
    have hfloor : 2 ^ (Nat.log2 x - 52) * k
        ≤ x / 2 ^ (Nat.log2 x - 52) * 2 ^ (Nat.log2 x - 52) := by
      rw [Nat.mul_comm]
      exact Nat.mul_le_mul_right _ hk
    rcases roundDouble_cases x (by omega) with h | ⟨h, _⟩
    · rw [h]; exact hfloor
    · rw [h]
      exact Nat.le_trans hfloor (Nat.mul_le_mul_right _ (Nat.le_succ _))

theorem roundDouble_lt (x Y : Nat) (hdvd : 2 ^ (Nat.log2 x - 52) ∣ Y)
    (h : 2 * x + 2 ^ (Nat.log2 x - 52) < 2 * Y) : roundDouble x < Y := by
  have hpos : 0 < 2 ^ (Nat.log2 x - 52) := Nat.two_pow_pos _
  by_cases hb : Nat.log2 x ≤ 52
  · rw [roundDouble_small x hb]; omega
  · have hdm := Nat.div_add_mod x (2 ^ (Nat.log2 x - 52))
    obtain ⟨k, rfl⟩ := hdvd
    rcases roundDouble_cases x (by omega) with h1 | ⟨h1, hr⟩
    · rw [h1]
      have := Nat.div_mul_le_self x (2 ^ (Nat.log2 x - 52))
      omega
    · rw [h1, Nat.mul_comm]
      apply Nat.mul_lt_mul_of_pos_left _ hpos
      have hlt : 2 ^ (Nat.log2 x - 52) * (2 * (x / 2 ^ (Nat.log2 x - 52)) + 2)
          < 2 ^ (Nat.log2 x - 52) * (2 * k) := by
        have e1 : 2 ^ (Nat.log2 x - 52) * (2 * (x / 2 ^ (Nat.log2 x - 52)) + 2)
            = 2 * (2 ^ (Nat.log2 x - 52) * (x / 2 ^ (Nat.log2 x - 52))) + 2 * 2 ^ (Nat.log2 x - 52) := by
          ring
        have e2 : 2 ^ (Nat.log2 x - 52) * (2 * k) = 2 * (2 ^ (Nat.log2 x - 52) * k) := by ring
        rw [e1, e2]
        omega
      have := Nat.lt_of_mul_lt_mul_left hlt
      omega


theorem log2_le_of_lt (x k : Nat) (hx : x < 2 ^ (k + 1)) : Nat.log2 x ≤ k := by
  by_cases h0 : x = 0
  · subst h0; simp [Nat.log2_zero]
  · have := (Nat.log2_lt h0).mpr hx
    omega

set_option exponentiation.threshold 3000 in
theorem unit_dvd (x k : Nat) (hx : x < 2 ^ 1081) : 2 ^ (Nat.log2 x - 52) ∣ k * one64 := by
  have hb := log2_le_of_lt x 1080 hx
  unfold one64
  exact Dvd.dvd.mul_left (Nat.pow_dvd_pow 2 (by omega)) k

theorem pow_1081 : (2:Nat) ^ 1081 = 128 * one64 := by
  unfold one64
  rw [show (128:Nat) = 2 ^ 7 by decide, ← Nat.pow_add]

set_option exponentiation.threshold 3000 in
theorem draw_le_max (r : Nat) (h : isDraw r = true) : r + 2 ^ 1021 ≤ one64 := by
  simp only [isDraw, isDouble, Bool.and_eq_true, Bool.or_eq_true, decide_eq_true_eq,
    beq_iff_eq] at h
  obtain ⟨hd, hlt⟩ := h
  have hU : one64 = 2 ^ 53 * 2 ^ 1021 := by unfold one64; rw [← Nat.pow_add]
  have hbig : (2:Nat) ^ 53 ≤ 2 ^ 1021 := Nat.pow_le_pow_right (by decide) (by decide)
  have h53 : (1:Nat) < 2 ^ 53 := by decide
  rcases hd with hd | hd
  · rw [hU]
    have : 2 * 2 ^ 1021 ≤ 2 ^ 53 * 2 ^ 1021 := Nat.mul_le_mul_right _ (by omega)
    omega
  · have hb := log2_le_of_lt r 1073 hlt
    by_cases hb2 : Nat.log2 r ≤ 1072
    · have h0 : r < 2 ^ 1073 := by
        by_cases h0 : r = 0
        · subst h0; exact Nat.two_pow_pos _
        · exact (Nat.log2_lt h0).mp (by omega)
      have h1 : (2:Nat) ^ 1073 = 2 ^ 52 * 2 ^ 1021 := by rw [← Nat.pow_add]
      have h2 : (2:Nat) ^ 53 = 2 * 2 ^ 52 := by rw [Nat.pow_succ, Nat.mul_comm]
      have h3 : (1:Nat) ≤ 2 ^ 52 := Nat.two_pow_pos _
      rw [hU, h2]
      rw [h1] at h0
      have : 2 ^ 52 * 2 ^ 1021 + 2 ^ 1021 ≤ 2 * 2 ^ 52 * 2 ^ 1021 := by
        have : 1 * 2 ^ 1021 ≤ 2 ^ 52 * 2 ^ 1021 := Nat.mul_le_mul_right _ h3
        have e : 2 * 2 ^ 52 * 2 ^ 1021 = 2 ^ 52 * 2 ^ 1021 + 2 ^ 52 * 2 ^ 1021 := by ring
        omega
      omega
    · have hbe : Nat.log2 r - 52 = 1021 := by omega
      rw [hbe] at hd
      obtain ⟨k, hk⟩ := Nat.dvd_of_mod_eq_zero hd
      rw [hk, hU] at hlt
      have hklt : k < 2 ^ 53 := by
        rw [Nat.mul_comm] at hlt
        exact Nat.lt_of_mul_lt_mul_right hlt
      have : (k + 1) * 2 ^ 1021 ≤ 2 ^ 53 * 2 ^ 1021 := Nat.mul_le_mul_right _ hklt
      rw [hk, hU]
      have e : (k + 1) * 2 ^ 1021 = 2 ^ 1021 * k + 2 ^ 1021 := by ring
      omega

set_option exponentiation.threshold 3000 in
theorem size_bounds (r : Nat) (h : isDraw r = true) :
    ofNat64 2 ≤ add64 (ofNat64 2) (mulConst r 3)
    ∧ add64 (ofNat64 2) (mulConst r 3) ≤ ofNat64 5 := by
  have hr : r < one64 := by
    simp only [isDraw, Bool.and_eq_true, decide_eq_true_eq] at h
    exact h.2
  have hU := pow_1081
  have ht : mulConst r 3 ≤ 3 * one64 := by
    unfold mulConst
    exact roundDouble_le _ _ (by omega) (unit_dvd _ 3 (by omega))
  unfold add64 ofNat64
  constructor
  · exact le_roundDouble _ _ (by omega) (unit_dvd _ 2 (by omega))
  · exact roundDouble_le _ _ (by omega) (unit_dvd _ 5 (by omega))

set_option exponentiation.threshold 3000 in
theorem left_bound (r : Nat) (h : isDraw r = true) : mulConst r 100 < ofNat64 100 := by
  have hmax := draw_le_max r h
  have hU := pow_1081
  have h21 : 0 < 2 ^ 1021 := Nat.two_pow_pos _
  have hx : r * 100 < 2 ^ 1081 := by omega
  have hb := log2_le_of_lt (r * 100) 1080 hx
  have hg : 2 ^ (Nat.log2 (r * 100) - 52) ≤ 2 ^ 1028 :=
    Nat.pow_le_pow_right (by decide) (by omega)
  have h28 : (2:Nat) ^ 1028 = 128 * 2 ^ 1021 := by
    rw [show (128:Nat) = 2 ^ 7 by decide, ← Nat.pow_add]
  unfold mulConst ofNat64
  apply roundDouble_lt _ _ (unit_dvd _ 100 (by omega))
  omega


theorem log2_eq_of_bounds (x b : Nat) (h1 : 2 ^ b ≤ x) (h2 : x < 2 ^ (b + 1)) :
    Nat.log2 x = b := by
  have hx : x ≠ 0 := by
    intro h
    subst h
    have := Nat.two_pow_pos b
    omega
  have := (Nat.le_log2 hx).mpr h1
  have := (Nat.log2_lt hx).mpr h2
  omega

set_option exponentiation.threshold 3000 in
theorem maxDraw_isDraw : isDraw maxDraw = true := by
  have hl : Nat.log2 maxDraw = 1073 := log2_eq_of_bounds _ _ (by decide) (by decide)
  unfold isDraw isDouble
  rw [hl]
  decide

set_option exponentiation.threshold 3000 in
theorem maxDraw_times_three : mulConst maxDraw 3 = 3 * one64 - 4 * 2 ^ 1021 := by
  have hl : Nat.log2 (maxDraw * 3) = 1075 := log2_eq_of_bounds _ _ (by decide) (by decide)
  unfold mulConst roundDouble
  simp only [hl]
  decide

set_option exponentiation.threshold 3000 in
theorem maxDraw_size : add64 (ofNat64 2) (mulConst maxDraw 3) = ofNat64 5 := by
  rw [maxDraw_times_three]
  have hl : Nat.log2 (ofNat64 2 + (3 * one64 - 4 * 2 ^ 1021)) = 1076 :=
    log2_eq_of_bounds _ _ (by decide) (by decide)
  unfold add64 roundDouble
  simp only [hl]
  decide


set_option exponentiation.threshold 3000 in
theorem halfDraw_isDraw : isDraw halfDraw = true := by
  have hl : Nat.log2 halfDraw = 1073 := log2_eq_of_bounds _ _ (by decide) (by decide)
  unfold isDraw isDouble
  rw [hl]
  decide

theorem makeParticle_width (random : Nat → Nat) (i : Nat) :
    (makeParticle random i).width = add64 (ofNat64 2) (mulConst (random (5 * i + 3)) 3) := rfl

/-- C10 (as stated, refuted): when `Math.random` returns `1 - 2^-53`, a
binary64 value below `1`, the sum `2 + r * 3` rounds to `5`: the container
holds a particle whose width is exactly 5 px, not below 5. -/
theorem particle_size_counterexample :
    isDraw maxDraw = true
    ∧ ∃ ps, (initParticles (fun _ => maxDraw) { container := some [] }).container = some ps
      ∧ ∃ p ∈ ps, p.width = ofNat64 5 ∧ ¬ (p.width < ofNat64 5) := by
  refine ⟨maxDraw_isDraw, _, rfl, makeParticle (fun _ => maxDraw) 0, ?_, ?_, ?_⟩
  · simp only [List.nil_append]
    exact List.mem_map.mpr ⟨0, by decide, rfl⟩
  · rw [makeParticle_width]
    exact maxDraw_size
  · rw [makeParticle_width, maxDraw_size]
    exact Nat.lt_irrefl _

/-- C10 (amended): when the container exists and is empty, and every draw of
`Math.random` is a binary64 value `r` with `0 <= r < 1`, the container holds
exactly 30 particle nodes after `initParticles`, each with left position `p`
percent where `0 <= p < 100` and with equal width and height `s` px where
`2 <= s <= 5`. -/
theorem particles_count_bounds (random : Nat → Nat) (h : ∀ k, isDraw (random k) = true) :
    ∃ ps, (initParticles random { container := some [] }).container = some ps
      ∧ ps.length = 30
      ∧ ∀ p ∈ ps, p.className = "particle"
          ∧ 0 ≤ p.left ∧ p.left < ofNat64 100
          ∧ p.width = p.height
          ∧ ofNat64 2 ≤ p.width ∧ p.width ≤ ofNat64 5 := by
  refine ⟨_, rfl, by simp [PARTICLE_COUNT], ?_⟩
  intro p hp
  simp only [List.nil_append, List.mem_map] at hp
  obtain ⟨i, _, rfl⟩ := hp
  have hs := size_bounds (random (5 * i + 3)) (h _)
  exact ⟨rfl, Nat.zero_le _, left_bound (random (5 * i)) (h _), rfl, hs.1, hs.2⟩

/-- Witness of `particles_count_bounds`: every draw returns `0.5`. -/
theorem particles_count_bounds_witness :
    ∃ ps, (initParticles (fun _ => halfDraw) { container := some [] }).container = some ps
      ∧ ps.length = 30
      ∧ ∀ p ∈ ps, p.className = "particle"
          ∧ 0 ≤ p.left ∧ p.left < ofNat64 100
          ∧ p.width = p.height
          ∧ ofNat64 2 ≤ p.width ∧ p.width ≤ ofNat64 5 :=
  particles_count_bounds (fun _ => halfDraw) (fun _ => halfDraw_isDraw)

end Portfolio
